import Mathlib

/-!
# GPIO character-device driver and misc-device registry

A shallow embedding of `gpio_demo.c` (the `/dev/gpio_demo` driver) and of the
`misc_register` / `misc_deregister` / `cdev_add` code in `Kernal_cdev_misc.c`.

Global C variables become fields of explicit state records that every function
takes and returns.  Results of kernel services whose code is not part of the
sources (the GPIO library, `kobj_map`, `device_create`, user-memory copies) are
either arguments of the embedded function (their return code) or small models
documented where they are defined.
-/

namespace GpioDemo

/-! ## Error numbers (`errno-base.h`) -/

def EIO : Int := 5
def ENOMEM : Int := 12
def EFAULT : Int := 14
def EBUSY : Int := 16
def ENODEV : Int := 19
def EINVAL : Int := 22
def ENOTTY : Int := 25

/-! ## The hardware line (external GPIO library) -/

/-- Direction of the electrical line as last configured in hardware. -/
inductive Direction where
  | Input
  | Output
deriving DecidableEq, Repr

/-- One call into the GPIO library, with its arguments and its return code. -/
inductive HwOp where
  | request (gpio : Int) (ret : Int)
  | free (gpio : Int)
  | direction_output (gpio : Int) (val : Int) (ret : Int)
  | direction_input (gpio : Int) (ret : Int)
  | get_value (gpio : Int)
  | set_value (gpio : Int) (val : Int)
deriving DecidableEq, Repr

/-- State of the leased line: its electrical level (what `gpio_get_value`
returns), the direction last configured, whether a lease is held, and the log of
all library calls made so far (oldest first). -/
structure HardwarePin where
  level : Int
  dir : Option Direction
  requested : Bool
  log : List HwOp
deriving DecidableEq, Repr

/-- Modelled from the spec: `HardwarePin.request`, absent from the sources.
The return code `ret` is supplied by the environment; the lease is taken exactly
when it is 0. -/
def gpio_request (hw : HardwarePin) (gpio : Int) (ret : Int) : HardwarePin × Int :=
  ({ hw with requested := if ret = 0 then true else hw.requested,
             log := hw.log ++ [HwOp.request gpio ret] }, ret)

/-- Modelled from the spec: `HardwarePin.free`, absent from the sources. -/
def gpio_free (hw : HardwarePin) (gpio : Int) : HardwarePin :=
  { hw with requested := false, log := hw.log ++ [HwOp.free gpio] }

/-- Modelled from the spec: `set_direction_output(lease, initial_level)`, absent
from the sources.  With return code 0 the line becomes an output driven at `val`;
with any other code the line is left as it was. -/
def gpio_direction_output (hw : HardwarePin) (gpio : Int) (val : Int) (ret : Int) :
    HardwarePin × Int :=
  ({ hw with level := if ret = 0 then val else hw.level,
             dir := if ret = 0 then some Direction.Output else hw.dir,
             log := hw.log ++ [HwOp.direction_output gpio val ret] }, ret)

/-- Modelled from the spec: `set_direction_input(lease)`, absent from the
sources.  With return code 0 the line becomes an input; the level it then senses
is kept as the last level, external drivers of the line are not modelled. -/
def gpio_direction_input (hw : HardwarePin) (gpio : Int) (ret : Int) : HardwarePin × Int :=
  ({ hw with dir := if ret = 0 then some Direction.Input else hw.dir,
             log := hw.log ++ [HwOp.direction_input gpio ret] }, ret)

/-- Modelled from the spec: `get_level(lease)`, absent from the sources. -/
def gpio_get_value (hw : HardwarePin) (gpio : Int) : HardwarePin × Int :=
  ({ hw with log := hw.log ++ [HwOp.get_value gpio] }, hw.level)

/-- Modelled from the spec: `set_level(lease, bit)`, absent from the sources. -/
def gpio_set_value (hw : HardwarePin) (gpio : Int) (val : Int) : HardwarePin :=
  { hw with level := val, log := hw.log ++ [HwOp.set_value gpio val] }

/-! ## Driver state -/

/-- The globals of `gpio_demo.c`: the module parameter `gpio`, the flag
`is_output`, and the line the driver talks to. -/
structure DriverState where
  gpio : Int
  is_output : Bool
  hw : HardwarePin
deriving DecidableEq, Repr

/-- Result of a file operation: the returned `ssize_t` / `long`, the file
position after the call, the bytes stored into the caller's buffer, and the
driver state after the call. -/
structure FileResult where
  ret : Int
  ppos : Int
  out : List Char
  st : DriverState
deriving DecidableEq, Repr

/-! ## ioctl command numbers -/

def GPIODEMO_IOC_MAGIC : Nat := 'G'.toNat

/-- Modelled from the spec: the `_IO(type, nr)` macro of `linux/ioctl.h`, absent
from the sources; a command number `nr` namespaced under the magic `type`
(direction and size fields are 0). -/
def _IO (type nr : Nat) : Nat := type * 256 + nr

def GPIODEMO_SET_DIR_OUT : Nat := _IO GPIODEMO_IOC_MAGIC 0
def GPIODEMO_SET_DIR_IN : Nat := _IO GPIODEMO_IOC_MAGIC 1

/-! ## Helpers of `gpio_demo.c` -/

/-- `set_dir_output_locked(val)`: refuse an invalid pin, otherwise configure the
line as an output at `val ? 1 : 0` and set `is_output` when that succeeded.
`hw_ret` is the return code of `gpio_direction_output`. -/
def set_dir_output_locked (gpio_is_valid : Int → Bool) (st : DriverState) (val : Int)
    (hw_ret : Int) : DriverState × Int :=
  if !gpio_is_valid st.gpio then (st, -EINVAL)
  else
    let r := gpio_direction_output st.hw st.gpio (if val ≠ 0 then 1 else 0) hw_ret
    let ret := r.2
    if ret = 0 then ({ st with hw := r.1, is_output := true }, ret)
    else ({ st with hw := r.1 }, ret)

/-- `set_dir_input_locked()`: refuse an invalid pin, otherwise configure the line
as an input and clear `is_output` when that succeeded.  `hw_ret` is the return
code of `gpio_direction_input`. -/
def set_dir_input_locked (gpio_is_valid : Int → Bool) (st : DriverState) (hw_ret : Int) :
    DriverState × Int :=
  if !gpio_is_valid st.gpio then (st, -EINVAL)
  else
    let r := gpio_direction_input st.hw st.gpio hw_ret
    let ret := r.2
    if ret = 0 then ({ st with hw := r.1, is_output := false }, ret)
    else ({ st with hw := r.1 }, ret)

/-- `scnprintf(kbuf, size, "%d\n", d)` for the one-digit values `!!val`
produces: the text, cut to `size - 1` characters. -/
def scnprintf_d_nl (size : Nat) (d : Int) : List Char :=
  ((if d = 0 then ['0'] else ['1']) ++ ['\n']).take (size - 1)

/-- `copy_to_user(buf, kbuf, len)`: `writable` is the number of bytes that can be
stored at the caller's `buf`; the result is the bytes stored and the number of
bytes that could not be copied. -/
def copy_to_user (writable : Nat) (kbuf : List Char) (len : Nat) : List Char × Nat :=
  ((kbuf.take len).take writable, len - writable)

/-- `copy_from_user(kbuf, buf, n)`: `ubuf` is the readable memory at the caller's
`buf`; the result is the bytes fetched and the number of bytes that could not be
copied. -/
def copy_from_user (ubuf : List Char) (n : Nat) : List Char × Nat :=
  (ubuf.take n, n - ubuf.length)

/-! ## `file_operations` of the driver -/

/-- `gpio_demo_read(filp, buf, count, ppos)`.  `writable` describes the caller's
buffer (see `copy_to_user`). -/
def gpio_demo_read (gpio_is_valid : Int → Bool) (st : DriverState) (writable : Nat)
    (count : Nat) (ppos : Int) : FileResult :=
  if !gpio_is_valid st.gpio then { ret := -ENODEV, ppos := ppos, out := [], st := st }
  else if ppos > 0 then { ret := 0, ppos := ppos, out := [], st := st }
  else
    let r := gpio_get_value st.hw st.gpio
    let val := r.2
    let st1 := { st with hw := r.1 }
    let kbuf := scnprintf_d_nl 3 (if val ≠ 0 then 1 else 0)
    let len := kbuf.length
    let c := copy_to_user writable kbuf len
    if c.2 ≠ 0 then { ret := -EFAULT, ppos := ppos, out := c.1, st := st1 }
    else { ret := len, ppos := ppos + len, out := c.1, st := st1 }

/-- `gpio_demo_write(filp, buf, count, ppos)`.  `ubuf` is the readable memory at
the caller's `buf`, `hw_ret` the return code of `gpio_direction_output` should it
be called.  The staging buffer `kbuf` has 8 bytes. -/
def gpio_demo_write (gpio_is_valid : Int → Bool) (st : DriverState) (ubuf : List Char)
    (count : Nat) (ppos : Int) (hw_ret : Int) : FileResult :=
  if !gpio_is_valid st.gpio then { ret := -ENODEV, ppos := ppos, out := [], st := st }
  else if count = 0 then { ret := 0, ppos := ppos, out := [], st := st }
  else
    let count := if count > 8 - 1 then 8 - 1 else count
    let c := copy_from_user ubuf count
    if c.2 ≠ 0 then { ret := -EFAULT, ppos := ppos, out := [], st := st }
    else
      let kbuf := c.1 ++ ['\x00']
      let k0 := kbuf.headD '\x00'
      let parsed : Option Int :=
        if k0 = '0' then some 0 else if k0 = '1' then some 1 else none
      match parsed with
      | none => { ret := -EINVAL, ppos := ppos, out := [], st := st }
      | some val =>
        if !st.is_output then
          let r := set_dir_output_locked gpio_is_valid st val hw_ret
          if r.2 ≠ 0 then { ret := - EIO, ppos := ppos, out := [], st := r.1 }
          else { ret := count, ppos := ppos, out := [], st := r.1 }
        else
          { ret := count, ppos := ppos, out := [],
            st := { st with hw := gpio_set_value st.hw st.gpio val } }

/-- `gpio_demo_ioctl(filp, cmd, arg)`.  `hw_ret` is the return code of the one
direction call the command makes. -/
def gpio_demo_ioctl (gpio_is_valid : Int → Bool) (st : DriverState) (cmd : Nat)
    (hw_ret : Int) : DriverState × Int :=
  if !gpio_is_valid st.gpio then (st, -ENODEV)
  else if cmd = GPIODEMO_SET_DIR_OUT then
    let r := gpio_get_value st.hw st.gpio
    set_dir_output_locked gpio_is_valid { st with hw := r.1 } r.2 hw_ret
  else if cmd = GPIODEMO_SET_DIR_IN then
    set_dir_input_locked gpio_is_valid st hw_ret
  else (st, -ENOTTY)

/-- `gpio_demo_open(inode, filp)`: the return code; a new session starts at file
position 0. -/
def gpio_demo_open (gpio_is_valid : Int → Bool) (st : DriverState) : Int :=
  if !gpio_is_valid st.gpio then -ENODEV else 0

/-! ## The misc-device registry (`Kernal_cdev_misc.c`) -/

/-- Constants of `drivers/char/misc.c` and `miscdevice.h` that the sources use
but do not define. -/
structure MiscConfig where
  MISC_MAJOR : Nat
  MISC_DYNAMIC_MINOR : Nat
  DYNAMIC_MINORS : Nat
  DYNAMIC_MINOR_BASE : Nat
deriving DecidableEq, Repr

/-- A device number: `MKDEV(major, minor)` kept as the pair it is built from. -/
abbrev dev_t := Nat × Nat

def MKDEV (ma mi : Nat) : dev_t := (ma, mi)

/-- A handler set, known by its owner module and an identity. -/
structure file_operations where
  owner : Nat
  id : Nat
deriving DecidableEq, Repr

/-- The fields of `struct cdev` the code reads or writes. -/
structure cdev where
  owner : Nat
  ops : file_operations
  dev : dev_t
  count : Nat
deriving DecidableEq, Repr

/-- Value of the pointer `misc->this_device`: null, `ERR_PTR(err)`, or the
device node created for a number under a name. -/
inductive DevicePtr where
  | null
  | err (e : Int)
  | node (dev : dev_t) (name : String)
deriving DecidableEq, Repr

def IS_ERR : DevicePtr → Bool
  | DevicePtr.err _ => true
  | _ => false

def PTR_ERR : DevicePtr → Int
  | DevicePtr.err e => e
  | _ => 0

/-- The fields of `struct miscdevice` (with the `mode` that `gpio_demo.c`
initialises). -/
structure miscdevice where
  minor : Nat
  name : String
  fops : file_operations
  mode : Nat
  parent : Nat
  this_device : DevicePtr
  cdev : cdev
deriving DecidableEq, Repr

/-- One entry of `cdev_map`: a range of device numbers bound to a handler. -/
structure Probe where
  dev : dev_t
  range : Nat
  data : file_operations
deriving DecidableEq, Repr

/-- One step taken by the registry on its global tables, in program order. -/
inductive RegOp where
  | set_bit (i : Nat)
  | clear_bit (i : Nat)
  | kobj_map (dev : dev_t) (err : Int)
  | cdev_del (dev : dev_t)
  | device_create (dev : dev_t) (name : String) (err : Int)
  | device_destroy (dev : dev_t)
deriving DecidableEq, Repr

/-- The globals of the registry: the bitmap `misc_minors` (the set of indices
whose bit is 1; the bitmap proper is the indices below `DYNAMIC_MINORS`), the
dispatch table `cdev_map`, the entries of `misc_class` (the device namespace),
and the log of steps taken so far (oldest first). -/
structure MiscState where
  misc_minors : Finset Nat
  cdev_map : List Probe
  misc_class : List (dev_t × String)
  log : List RegOp
deriving DecidableEq

/-- The registry before anything was registered. -/
def MiscState.empty : MiscState :=
  { misc_minors := ∅, cdev_map := [], misc_class := [], log := [] }

/-- Modelled from the spec: `find_first_zero_bit(addr, size)`, a kernel bitmap
helper absent from the sources: the index of the first clear bit below `size`,
or `size` when there is none. -/
def find_first_zero_bit (addr : Finset Nat) (size : Nat) : Nat :=
  ((List.range size).find? (fun i => decide (i ∉ addr))).getD size

/-- Modelled from the spec: `set_bit(nr, addr)`, absent from the sources. -/
def set_bit (nr : Nat) (addr : Finset Nat) : Finset Nat := insert nr addr

/-- Modelled from the spec: `clear_bit(nr, addr)`, absent from the sources. -/
def clear_bit (nr : Nat) (addr : Finset Nat) : Finset Nat := addr.erase nr

/-- The generic handler set `misc_fops` that `cdev_init` is first given. -/
def misc_fops : file_operations := { owner := 0, id := 0 }

/-- `cdev_init(cdev, fops)`: zero the structure, then hang `fops` on it. -/
def cdev_init (fops : file_operations) : cdev :=
  { owner := 0, ops := fops, dev := (0, 0), count := 0 }

/-- Modelled from the spec: `DispatchTable.bind`, the `kobj_map` call absent from
the sources.  The error code is supplied by the environment; with 0 the range is
entered into the table. -/
def kobj_map (domain : List Probe) (dev : dev_t) (range : Nat) (data : file_operations)
    (err : Int) : List Probe × Int :=
  if err ≠ 0 then (domain, err) else ({ dev := dev, range := range, data := data } :: domain, 0)

/-- `cdev_add(p, dev, count)`: record the number and count in the cdev, then map
the range; `map_err` is the return code of `kobj_map`.  The reference taken by
`kobject_get` on success has no counterpart in the state. -/
def cdev_add (s : MiscState) (p : cdev) (dev : dev_t) (count : Nat) (map_err : Int) :
    MiscState × cdev × Int :=
  let p := { p with dev := dev, count := count }
  let r := kobj_map s.cdev_map dev count p.ops map_err
  let s := { s with cdev_map := r.1, log := s.log ++ [RegOp.kobj_map dev map_err] }
  let error := r.2
  if error ≠ 0 then (s, p, error) else (s, p, 0)

/-- Modelled from the spec: `DispatchTable.unbind`, the `cdev_del` call absent
from the sources: the first entry bound at the cdev's number and count is
removed. -/
def cdev_del (s : MiscState) (p : cdev) : MiscState :=
  { s with
    cdev_map := s.cdev_map.eraseP (fun b => decide (b.dev = p.dev ∧ b.range = p.count)),
    log := s.log ++ [RegOp.cdev_del p.dev] }

/-- Modelled from the spec: creation of the namespace entry, the `device_create`
call absent from the sources.  With `err = 0` the entry is created, otherwise
`ERR_PTR(err)` is returned and nothing is created. -/
def device_create (s : MiscState) (dev : dev_t) (name : String) (err : Int) :
    MiscState × DevicePtr :=
  let log := s.log ++ [RegOp.device_create dev name err]
  if err ≠ 0 then ({ s with log := log }, DevicePtr.err err)
  else ({ s with misc_class := (dev, name) :: s.misc_class, log := log },
        DevicePtr.node dev name)

/-- Modelled from the spec: destruction of the namespace entry, the
`device_destroy` call absent from the sources. -/
def device_destroy (s : MiscState) (dev : dev_t) : MiscState :=
  { s with misc_class := s.misc_class.eraseP (fun e => decide (e.1 = dev)),
           log := s.log ++ [RegOp.device_destroy dev] }

/-- `misc_register(misc)`.  `map_err` is the return code of `kobj_map` inside
`cdev_add`, `create_err` the error (0 for none) of `device_create`.  Returns the
registry, the descriptor as the call leaves it, and the return code. -/
def misc_register (cfg : MiscConfig) (s : MiscState) (misc : miscdevice)
    (map_err create_err : Int) : MiscState × miscdevice × Int :=
  let alloc : Option (MiscState × miscdevice) :=
    if misc.minor = cfg.MISC_DYNAMIC_MINOR then
      let i := find_first_zero_bit s.misc_minors cfg.DYNAMIC_MINORS
      if i ≥ cfg.DYNAMIC_MINORS then none
      else
        some ({ s with misc_minors := set_bit i s.misc_minors,
                       log := s.log ++ [RegOp.set_bit i] },
              { misc with minor := cfg.DYNAMIC_MINOR_BASE + i })
    else some (s, misc)
  match alloc with
  | none => (s, misc, -EBUSY)
  | some (s, misc) =>
    let dev := MKDEV cfg.MISC_MAJOR misc.minor
    let c := cdev_init misc_fops
    let c := { c with owner := misc.fops.owner }
    let c := { c with ops := misc.fops }
    let a := cdev_add s c dev 1 map_err
    let s := a.1
    let misc := { misc with cdev := a.2.1 }
    let err := a.2.2
    if err ≠ 0 then (s, misc, err)
    else
      let d := device_create s dev misc.name create_err
      let s := d.1
      let misc := { misc with this_device := d.2 }
      if IS_ERR misc.this_device then
        let s := cdev_del s misc.cdev
        (s, misc, PTR_ERR misc.this_device)
      else (s, misc, err)

/-- `misc_deregister(misc)`. -/
def misc_deregister (cfg : MiscConfig) (s : MiscState) (misc : miscdevice) :
    MiscState × Int :=
  let dev := MKDEV cfg.MISC_MAJOR misc.minor
  let s := device_destroy s dev
  let s := cdev_del s misc.cdev
  let s := if misc.minor ≥ cfg.DYNAMIC_MINOR_BASE then
      { s with misc_minors := clear_bit (misc.minor - cfg.DYNAMIC_MINOR_BASE) s.misc_minors,
               log := s.log ++ [RegOp.clear_bit (misc.minor - cfg.DYNAMIC_MINOR_BASE)] }
    else s
  (s, 0)

/-! ## Module load and unload (`gpio_demo.c`) -/

/-- The handler set `gpio_demo_fops`. -/
def gpio_demo_fops : file_operations := { owner := 1, id := 1 }

/-- The descriptor `gpio_demo_miscdev` as the module image holds it. -/
def gpio_demo_miscdev (cfg : MiscConfig) : miscdevice :=
  { minor := cfg.MISC_DYNAMIC_MINOR, name := "gpio_demo", fops := gpio_demo_fops,
    mode := 0o666, parent := 0, this_device := DevicePtr.null,
    cdev := { owner := 0, ops := { owner := 0, id := 0 }, dev := (0, 0), count := 0 } }

/-- Everything the module touches: the driver globals, the registry globals and
the descriptor `gpio_demo_miscdev`. -/
structure World where
  drv : DriverState
  reg : MiscState
  miscdev : miscdevice
deriving DecidableEq

/-- Return codes handed to `gpio_demo_init` by the kernel services it calls. -/
structure InitOutcomes where
  request_ret : Int
  dir_ret : Int
  map_err : Int
  create_err : Int
deriving DecidableEq, Repr

/-- `gpio_demo_init()` with the module parameters `initial_is_output` and
`initial_value`. -/
def gpio_demo_init (cfg : MiscConfig) (gpio_is_valid : Int → Bool) (w : World)
    (initial_is_output : Bool) (initial_value : Int) (o : InitOutcomes) : World × Int :=
  if !gpio_is_valid w.drv.gpio then (w, -EINVAL)
  else
    let rq := gpio_request w.drv.hw w.drv.gpio o.request_ret
    let w := { w with drv := { w.drv with hw := rq.1 } }
    let ret := rq.2
    if ret ≠ 0 then (w, ret)
    else
      let r := if initial_is_output then
          set_dir_output_locked gpio_is_valid w.drv initial_value o.dir_ret
        else set_dir_input_locked gpio_is_valid w.drv o.dir_ret
      let w := { w with drv := r.1 }
      let ret := r.2
      if ret ≠ 0 then
        ({ w with drv := { w.drv with hw := gpio_free w.drv.hw w.drv.gpio } }, ret)
      else
        let m := misc_register cfg w.reg w.miscdev o.map_err o.create_err
        let w := { w with reg := m.1, miscdev := m.2.1 }
        let ret := m.2.2
        if ret ≠ 0 then
          ({ w with drv := { w.drv with hw := gpio_free w.drv.hw w.drv.gpio } }, ret)
        else (w, 0)

/-- `gpio_demo_exit()`. -/
def gpio_demo_exit (cfg : MiscConfig) (gpio_is_valid : Int → Bool) (w : World) : World :=
  let w := { w with reg := (misc_deregister cfg w.reg w.miscdev).1 }
  if gpio_is_valid w.drv.gpio then
    { w with drv := { w.drv with hw := gpio_free w.drv.hw w.drv.gpio } }
  else w

/-- The machine before `insmod`: the line is free and at level `level`, the
driver globals hold their initialisers (with the `gpio` parameter given), and
the registry is `reg`. -/
def World.boot (cfg : MiscConfig) (gpio : Int) (level : Int) (reg : MiscState) : World :=
  { drv := { gpio := gpio, is_output := false,
             hw := { level := level, dir := none, requested := false, log := [] } },
    reg := reg, miscdev := gpio_demo_miscdev cfg }

/-! ## Concrete instances used to exercise the definitions -/

/-- A GPIO library with 512 lines, numbered from 0. -/
def gpio_is_valid_512 : Int → Bool := fun n => decide (0 ≤ n ∧ n < 512)

/-- The constants of a kernel whose misc class has major 10, the marker 255 for
"dynamic minor", and 4 dynamic minors starting at 128. -/
def cfg4 : MiscConfig :=
  { MISC_MAJOR := 10, MISC_DYNAMIC_MINOR := 255, DYNAMIC_MINORS := 4, DYNAMIC_MINOR_BASE := 128 }

/-- All kernel services succeed. -/
def all_ok : InitOutcomes := { request_ret := 0, dir_ret := 0, map_err := 0, create_err := 0 }

/-- The driver after `insmod gpio_demo.ko gpio=21 initial_is_output=1
initial_value=1` on a fresh registry. -/
def drv_out1 : DriverState :=
  (gpio_demo_init cfg4 gpio_is_valid_512 (World.boot cfg4 21 0 MiscState.empty) true 1 all_ok).1.drv

/-- The driver after `insmod gpio_demo.ko gpio=21 initial_is_output=0` on a
fresh registry, with the line sensing `level`. -/
def drv_in (level : Int) : DriverState :=
  (gpio_demo_init cfg4 gpio_is_valid_512 (World.boot cfg4 21 level MiscState.empty)
    false 0 all_ok).1.drv

/-- Successive reads on one open file: each read starts at the position and
driver state the previous one left.  Every read has its own buffer
`(writable, count)`. -/
def read_seq (gpio_is_valid : Int → Bool) :
    DriverState → Int → List (Nat × Nat) → List FileResult
  | _, _, [] => []
  | st, ppos, (writable, count) :: rest =>
    let r := gpio_demo_read gpio_is_valid st writable count ppos
    r :: read_seq gpio_is_valid r.st r.ppos rest

/-! ## Definitions used to state the properties -/

/-- The value a first byte `'0'` or `'1'` stands for. -/
def parsed_value (b : Char) : Int := if b = '0' then 0 else 1

/-- The descriptor and registry right after the allocation step of a dynamic
registration that found bit `i`. -/
def after_alloc (cfg : MiscConfig) (s : MiscState) (misc : miscdevice) (i : Nat) :
    MiscState × miscdevice :=
  ({ s with misc_minors := set_bit i s.misc_minors, log := s.log ++ [RegOp.set_bit i] },
   { misc with minor := cfg.DYNAMIC_MINOR_BASE + i })

/-- The part of `misc_register` after the allocation step, on the registry and
descriptor that step left. -/
def bind_and_publish (cfg : MiscConfig) (s : MiscState) (misc : miscdevice)
    (map_err create_err : Int) : MiscState × miscdevice × Int :=
  let dev := MKDEV cfg.MISC_MAJOR misc.minor
  let c : cdev := { owner := misc.fops.owner, ops := misc.fops, dev := dev, count := 1 }
  let misc1 := { misc with cdev := c }
  if map_err ≠ 0 then
    ({ s with log := s.log ++ [RegOp.kobj_map dev map_err] }, misc1, map_err)
  else if create_err ≠ 0 then
    ({ s with
        cdev_map := s.cdev_map,
        log := s.log ++ [RegOp.kobj_map dev 0, RegOp.device_create dev misc.name create_err,
                         RegOp.cdev_del dev] },
      { misc1 with this_device := DevicePtr.err create_err }, create_err)
  else
    ({ s with
        cdev_map := { dev := dev, range := 1, data := misc.fops } :: s.cdev_map,
        misc_class := (dev, misc.name) :: s.misc_class,
        log := s.log ++ [RegOp.kobj_map dev 0, RegOp.device_create dev misc.name 0] },
      { misc1 with this_device := DevicePtr.node dev misc.name }, 0)

/-- Successive registrations, each with binding and publishing succeeding; the
result is the registry at the end and, per call, the descriptor as the call left
it with the return code. -/
def register_all (cfg : MiscConfig) : MiscState → List miscdevice →
    MiscState × List (miscdevice × Int)
  | s, [] => (s, [])
  | s, m :: ms =>
    let r := misc_register cfg s m 0 0
    let t := register_all cfg r.1 ms
    (t.1, (r.2.1, r.2.2) :: t.2)

/-- A descriptor with the explicit minor 128. -/
def static_128 : miscdevice :=
  { minor := 128, name := "static", fops := { owner := 2, id := 2 }, mode := 0o600, parent := 0,
    this_device := DevicePtr.null,
    cdev := { owner := 0, ops := { owner := 0, id := 0 }, dev := (0, 0), count := 0 } }

/-- Number of live dispatch bindings (device records) that hold `minor` of the
misc major. -/
def leased_count (cfg : MiscConfig) (s : MiscState) (minor : Nat) : Nat :=
  s.cdev_map.countP (fun b => decide (b.dev = MKDEV cfg.MISC_MAJOR minor))

/-- The bitmap invariant of the data model: a bit is set exactly when its minor is
held by exactly one live device record. -/
def minor_bitmap_inv (cfg : MiscConfig) (s : MiscState) : Prop :=
  ∀ i, i < cfg.DYNAMIC_MINORS →
    (i ∈ s.misc_minors ↔ leased_count cfg s (cfg.DYNAMIC_MINOR_BASE + i) = 1)

/-- Registry states reachable from the empty registry by any calls of
`misc_register` and `misc_deregister`, with any descriptors and any outcomes of
the binding and publishing steps. -/
inductive Reachable (cfg : MiscConfig) : MiscState → Prop where
  | empty : Reachable cfg MiscState.empty
  | register (s : MiscState) (misc : miscdevice) (map_err create_err : Int) :
      Reachable cfg s → Reachable cfg (misc_register cfg s misc map_err create_err).1
  | deregister (s : MiscState) (misc : miscdevice) :
      Reachable cfg s → Reachable cfg (misc_deregister cfg s misc).1

/-- The descriptor names a device that is registered now: its cdev carries the
number built from its minor, and the dispatch table binds that number. -/
def currently_registered (cfg : MiscConfig) (s : MiscState) (misc : miscdevice) : Prop :=
  misc.cdev.dev = MKDEV cfg.MISC_MAJOR misc.minor ∧ misc.cdev.count = 1 ∧
  ∃ b ∈ s.cdev_map, b.dev = misc.cdev.dev ∧ b.range = 1

/-- Registry states reachable from the empty registry by: dynamic registrations
whose binding and publishing steps succeed, registrations (succeeding or failing)
with an explicit minor below `DYNAMIC_MINOR_BASE`, and deregistrations of a
device that is registered at that moment. -/
inductive OrderlyReachable (cfg : MiscConfig) : MiscState → Prop where
  | empty : OrderlyReachable cfg MiscState.empty
  | register_dynamic (s : MiscState) (misc : miscdevice) :
      OrderlyReachable cfg s → misc.minor = cfg.MISC_DYNAMIC_MINOR →
      OrderlyReachable cfg (misc_register cfg s misc 0 0).1
  | register_static (s : MiscState) (misc : miscdevice) (map_err create_err : Int) :
      OrderlyReachable cfg s → misc.minor ≠ cfg.MISC_DYNAMIC_MINOR →
      misc.minor < cfg.DYNAMIC_MINOR_BASE →
      OrderlyReachable cfg (misc_register cfg s misc map_err create_err).1
  | deregister (s : MiscState) (misc : miscdevice) :
      OrderlyReachable cfg s → currently_registered cfg s misc →
      OrderlyReachable cfg (misc_deregister cfg s misc).1

/-- The invariant carried through the induction: a set bit has exactly one
binding, a clear bit has none. -/
def bits_match_bindings (cfg : MiscConfig) (s : MiscState) : Prop :=
  ∀ i, i < cfg.DYNAMIC_MINORS →
    (i ∈ s.misc_minors → leased_count cfg s (cfg.DYNAMIC_MINOR_BASE + i) = 1) ∧
    (i ∉ s.misc_minors → leased_count cfg s (cfg.DYNAMIC_MINOR_BASE + i) = 0)

/-- The direction the flag `is_output` stands for. -/
def flag_direction (is_output : Bool) : Direction :=
  if is_output then Direction.Output else Direction.Input

/-- What one library call does to "the last successful direction operation". -/
def direction_step (acc : Option Direction) (op : HwOp) : Option Direction :=
  match op with
  | HwOp.direction_output _ _ ret => if ret = 0 then some Direction.Output else acc
  | HwOp.direction_input _ ret => if ret = 0 then some Direction.Input else acc
  | _ => acc

/-- The last successful direction operation in a log of library calls, if any. -/
def last_direction (log : List HwOp) : Option Direction :=
  log.foldl direction_step none

/-- Driver states reachable from a successful `gpio_demo_init` by any calls of
read, write and ioctl, with any arguments and any outcomes of the library calls. -/
inductive DriverReachable (gpio_is_valid : Int → Bool) : DriverState → Prop where
  | init (cfg : MiscConfig) (w : World) (initial_is_output : Bool) (initial_value : Int)
      (o : InitOutcomes) :
      (gpio_demo_init cfg gpio_is_valid w initial_is_output initial_value o).2 = 0 →
      DriverReachable gpio_is_valid
        (gpio_demo_init cfg gpio_is_valid w initial_is_output initial_value o).1.drv
  | read (st : DriverState) (writable count : Nat) (ppos : Int) :
      DriverReachable gpio_is_valid st →
      DriverReachable gpio_is_valid (gpio_demo_read gpio_is_valid st writable count ppos).st
  | write (st : DriverState) (ubuf : List Char) (count : Nat) (ppos : Int) (hw_ret : Int) :
      DriverReachable gpio_is_valid st →
      DriverReachable gpio_is_valid
        (gpio_demo_write gpio_is_valid st ubuf count ppos hw_ret).st
  | ioctl (st : DriverState) (cmd : Nat) (hw_ret : Int) :
      DriverReachable gpio_is_valid st →
      DriverReachable gpio_is_valid (gpio_demo_ioctl gpio_is_valid st cmd hw_ret).1

/-- The invariant: flag, log and line agree on the direction. -/
def flag_matches_line (st : DriverState) : Prop :=
  last_direction st.hw.log = some (flag_direction st.is_output) ∧
  st.hw.dir = some (flag_direction st.is_output)

/-- The direction step of `gpio_demo_init`: output at the initial value, or input. -/
def init_direction (gpio_is_valid : Int → Bool) (st : DriverState) (initial_is_output : Bool)
    (initial_value : Int) (dir_ret : Int) : DriverState × Int :=
  if initial_is_output then set_dir_output_locked gpio_is_valid st initial_value dir_ret
  else set_dir_input_locked gpio_is_valid st dir_ret

/-- The driver state right after the `gpio_request` call of `gpio_demo_init`. -/
def after_request (w : World) (request_ret : Int) : DriverState :=
  { w.drv with hw := (gpio_request w.drv.hw w.drv.gpio request_ret).1 }

/-- The library call the direction step of `gpio_demo_init` makes. -/
def init_direction_op (gpio : Int) (initial_is_output : Bool) (initial_value : Int)
    (dir_ret : Int) : HwOp :=
  if initial_is_output then
    HwOp.direction_output gpio (if initial_value ≠ 0 then 1 else 0) dir_ret
  else HwOp.direction_input gpio dir_ret

/-- On a valid pin, a read at position 0 into a buffer that can take two bytes
is this result. -/
theorem read_at_zero_eq (gpio_is_valid : Int → Bool) (st : DriverState)
    (writable count : Nat) (hvalid : gpio_is_valid st.gpio = true) (hbuf : 2 ≤ writable) :
    gpio_demo_read gpio_is_valid st writable count 0 =
      { ret := 2, ppos := 2,
        out := if st.hw.level = 0 then ['0', '\n'] else ['1', '\n'],
        st := { st with hw := { st.hw with log := st.hw.log ++ [HwOp.get_value st.gpio] } } } := by
  have h2 : (2 : Nat) - writable = 0 := by omega
  by_cases hl : st.hw.level = 0 <;>
    simp [gpio_demo_read, hvalid, gpio_get_value, scnprintf_d_nl, copy_to_user, hl, h2,
      List.take_of_length_le, hbuf]

/-- C1: on a valid pin, a read at position 0 into a buffer that can take the two
bytes returns 2, delivers "0\n" for level 0 and "1\n" for any other level,
moves the position to 2, leaves the direction flag, the pin number, the level
and the hardware direction as they were (the only library call is one
`gpio_get_value`), and delivers the same bytes whatever the direction is. -/
theorem read_at_zero_snapshot (gpio_is_valid : Int → Bool) (st : DriverState)
    (writable count : Nat) (hvalid : gpio_is_valid st.gpio = true) (hbuf : 2 ≤ writable) :
    (gpio_demo_read gpio_is_valid st writable count 0).ret = 2 ∧
    (gpio_demo_read gpio_is_valid st writable count 0).out =
      (if st.hw.level = 0 then ['0', '\n'] else ['1', '\n']) ∧
    (gpio_demo_read gpio_is_valid st writable count 0).out.length = 2 ∧
    (gpio_demo_read gpio_is_valid st writable count 0).ppos = 0 + 2 ∧
    (gpio_demo_read gpio_is_valid st writable count 0).st.is_output = st.is_output ∧
    (gpio_demo_read gpio_is_valid st writable count 0).st.gpio = st.gpio ∧
    (gpio_demo_read gpio_is_valid st writable count 0).st.hw.level = st.hw.level ∧
    (gpio_demo_read gpio_is_valid st writable count 0).st.hw.dir = st.hw.dir ∧
    (gpio_demo_read gpio_is_valid st writable count 0).st.hw.log =
      st.hw.log ++ [HwOp.get_value st.gpio] ∧
    (∀ (flag : Bool) (d : Option Direction),
      (gpio_demo_read gpio_is_valid
          { st with is_output := flag, hw := { st.hw with dir := d } } writable count 0).out =
        (gpio_demo_read gpio_is_valid st writable count 0).out ∧
      (gpio_demo_read gpio_is_valid
          { st with is_output := flag, hw := { st.hw with dir := d } } writable count 0).ret =
        (gpio_demo_read gpio_is_valid st writable count 0).ret) := by
  have hv2 : ∀ (flag : Bool) (d : Option Direction),
      gpio_is_valid ({ st with is_output := flag, hw := { st.hw with dir := d } } :
        DriverState).gpio = true := fun _ _ => hvalid
  refine ⟨?_, ?_, ?_, ?_, ?_, ?_, ?_, ?_, ?_, ?_⟩
  all_goals first
    | (intro flag d
       rw [read_at_zero_eq gpio_is_valid _ writable count (hv2 flag d) hbuf,
         read_at_zero_eq gpio_is_valid st writable count hvalid hbuf]
       exact ⟨rfl, rfl⟩)
    | (rw [read_at_zero_eq gpio_is_valid st writable count hvalid hbuf]
       try (split <;> rfl))

theorem read_at_zero_snapshot_witness :
    (gpio_demo_read gpio_is_valid_512 drv_out1 2 100 0).ret = 2 ∧
    (gpio_demo_read gpio_is_valid_512 drv_out1 2 100 0).out = ['1', '\n'] := by
  have h := read_at_zero_snapshot gpio_is_valid_512 drv_out1 2 100 (by decide) (by decide)
  exact ⟨h.1, by rw [h.2.1]; decide⟩

/-- A read at a position above 0 on a valid pin returns 0, stores nothing and
changes neither the position nor the driver state. -/
theorem read_past_zero (gpio_is_valid : Int → Bool) (st : DriverState)
    (writable count : Nat) (ppos : Int) (hvalid : gpio_is_valid st.gpio = true)
    (hpos : ppos > 0) :
    gpio_demo_read gpio_is_valid st writable count ppos =
      { ret := 0, ppos := ppos, out := [], st := st } := by
  simp [gpio_demo_read, hvalid, hpos]

/-- Every read of a run of reads that starts at a position above 0 returns 0 and
leaves everything as it was. -/
theorem read_seq_past_zero (gpio_is_valid : Int → Bool) (st : DriverState) (ppos : Int)
    (hvalid : gpio_is_valid st.gpio = true) (hpos : ppos > 0) (later : List (Nat × Nat)) :
    ∀ r ∈ read_seq gpio_is_valid st ppos later,
      r = { ret := 0, ppos := ppos, out := [], st := st } := by
  induction later with
  | nil => simp [read_seq]
  | cons b rest ih =>
    obtain ⟨w, c⟩ := b
    intro r hr
    simp only [read_seq, List.mem_cons] at hr
    rw [read_past_zero gpio_is_valid st w c ppos hvalid hpos] at hr
    rcases hr with h | h
    · exact h
    · exact ih r h

/-- C2: one-shot end-of-stream.  (1) On a valid pin a read at a position above 0
returns 0 bytes and leaves position and driver state (direction flag and pin)
untouched.  (2) After a first read at position 0 into a sufficient buffer, which
returns the 2-byte snapshot, every later read on the same session returns 0 and
changes nothing, while a read at position 0 (a new session) returns the same
snapshot again.  (3) Constructed with pin 21 as output at value 1, the reads
return "1\n", then 0 bytes, then "1\n" on a new session. -/
theorem read_one_shot :
    (∀ (gpio_is_valid : Int → Bool) (st : DriverState) (writable count : Nat) (ppos : Int),
      gpio_is_valid st.gpio = true → ppos > 0 →
      (gpio_demo_read gpio_is_valid st writable count ppos).ret = 0 ∧
      (gpio_demo_read gpio_is_valid st writable count ppos).out = [] ∧
      (gpio_demo_read gpio_is_valid st writable count ppos).ppos = ppos ∧
      (gpio_demo_read gpio_is_valid st writable count ppos).st = st) ∧
    (∀ (gpio_is_valid : Int → Bool) (st : DriverState) (writable count : Nat),
      gpio_is_valid st.gpio = true → 2 ≤ writable →
      (gpio_demo_read gpio_is_valid st writable count 0).ret = 2 ∧
      (gpio_demo_read gpio_is_valid st writable count 0).out.length = 2 ∧
      (∀ (later : List (Nat × Nat)),
        ∀ r ∈ read_seq gpio_is_valid (gpio_demo_read gpio_is_valid st writable count 0).st
            (gpio_demo_read gpio_is_valid st writable count 0).ppos later,
          r.ret = 0 ∧ r.out = [] ∧
          r.ppos = (gpio_demo_read gpio_is_valid st writable count 0).ppos ∧
          r.st = (gpio_demo_read gpio_is_valid st writable count 0).st) ∧
      (∀ (writable2 count2 : Nat), 2 ≤ writable2 →
        (gpio_demo_read gpio_is_valid (gpio_demo_read gpio_is_valid st writable count 0).st
            writable2 count2 0).ret = 2 ∧
        (gpio_demo_read gpio_is_valid (gpio_demo_read gpio_is_valid st writable count 0).st
            writable2 count2 0).out = (gpio_demo_read gpio_is_valid st writable count 0).out)) ∧
    ((gpio_demo_init cfg4 gpio_is_valid_512 (World.boot cfg4 21 0 MiscState.empty)
        true 1 all_ok).2 = 0 ∧
      (gpio_demo_read gpio_is_valid_512 drv_out1 100 100 0).ret = 2 ∧
      (gpio_demo_read gpio_is_valid_512 drv_out1 100 100 0).out = ['1', '\n'] ∧
      (gpio_demo_read gpio_is_valid_512
        (gpio_demo_read gpio_is_valid_512 drv_out1 100 100 0).st 100 100
        (gpio_demo_read gpio_is_valid_512 drv_out1 100 100 0).ppos).ret = 0 ∧
      (gpio_demo_read gpio_is_valid_512
        (gpio_demo_read gpio_is_valid_512 drv_out1 100 100 0).st 100 100
        (gpio_demo_read gpio_is_valid_512 drv_out1 100 100 0).ppos).out = [] ∧
      (gpio_demo_read gpio_is_valid_512
        (gpio_demo_read gpio_is_valid_512
          (gpio_demo_read gpio_is_valid_512 drv_out1 100 100 0).st 100 100
          (gpio_demo_read gpio_is_valid_512 drv_out1 100 100 0).ppos).st 100 100 0).ret = 2 ∧
      (gpio_demo_read gpio_is_valid_512
        (gpio_demo_read gpio_is_valid_512
          (gpio_demo_read gpio_is_valid_512 drv_out1 100 100 0).st 100 100
          (gpio_demo_read gpio_is_valid_512 drv_out1 100 100 0).ppos).st 100 100 0).out =
        ['1', '\n']) := by
  refine ⟨?_, ?_, ?_⟩
  · intro v st w c ppos hvalid hpos
    rw [read_past_zero v st w c ppos hvalid hpos]
    exact ⟨rfl, rfl, rfl, rfl⟩
  · intro v st w c hvalid hbuf
    have h1 := read_at_zero_eq v st w c hvalid hbuf
    have hv1 : v (gpio_demo_read v st w c 0).st.gpio = true := by rw [h1]; exact hvalid
    refine ⟨by rw [h1], by rw [h1]; split <;> rfl, ?_, ?_⟩
    · intro later r hr
      have hp1 : (gpio_demo_read v st w c 0).ppos > 0 := by
        rw [h1]; exact (by decide : (2 : Int) > 0)
      rw [read_seq_past_zero v _ _ hv1 hp1 later r hr]
      exact ⟨rfl, rfl, rfl, rfl⟩
    · intro w2 c2 hbuf2
      rw [read_at_zero_eq v (gpio_demo_read v st w c 0).st w2 c2 hv1 hbuf2, h1]
      exact ⟨rfl, rfl⟩
  · decide

theorem read_one_shot_witness :
    (gpio_demo_read gpio_is_valid_512 drv_out1 100 100 2).ret = 0 ∧
    (gpio_demo_read gpio_is_valid_512 drv_out1 100 100 2).st = drv_out1 ∧
    (gpio_demo_read gpio_is_valid_512 drv_out1 100 100 0).ret = 2 := by
  have hp : (2 : Int) > 0 := by decide
  have h1 := read_one_shot.1 gpio_is_valid_512 drv_out1 100 100 2 (by decide) hp
  have h2 := read_one_shot.2.1 gpio_is_valid_512 drv_out1 100 100 (by decide) (by decide)
  exact ⟨h1.1, h1.2.2.2, h2.1⟩

/-! ## Properties of `gpio_demo_write` -/

/-- On a valid pin, a write of the bytes `b :: rest` with `b` one of `'0'`, `'1'`
is this result. -/
theorem write_digit_eq (gpio_is_valid : Int → Bool) (st : DriverState) (b : Char)
    (rest : List Char) (ppos : Int) (hw_ret : Int)
    (hvalid : gpio_is_valid st.gpio = true) (hb : b = '0' ∨ b = '1') :
    gpio_demo_write gpio_is_valid st (b :: rest) (b :: rest).length ppos hw_ret =
      if st.is_output = true then
        { ret := ((min (b :: rest).length 7 : Nat) : Int), ppos := ppos, out := [],
          st := { st with hw := gpio_set_value st.hw st.gpio (parsed_value b) } }
      else if hw_ret ≠ 0 then
        { ret := - EIO, ppos := ppos, out := [],
          st := { st with
            hw := (gpio_direction_output st.hw st.gpio (parsed_value b) hw_ret).1 } }
      else
        { ret := ((min (b :: rest).length 7 : Nat) : Int), ppos := ppos, out := [],
          st := { st with
            hw := (gpio_direction_output st.hw st.gpio (parsed_value b) hw_ret).1,
            is_output := true } } := by
  have hcap : (if (b :: rest).length > 8 - 1 then 8 - 1 else (b :: rest).length)
      = min (b :: rest).length 7 := by
    simp only [List.length_cons]; split <;> omega
  have hpos : 0 < min (b :: rest).length 7 := by simp
  have hsub : min (b :: rest).length 7 - (b :: rest).length = 0 := by omega
  have hhead : (List.take (min (b :: rest).length 7) (b :: rest) ++ ['\x00']).headD '\x00' = b := by
    obtain ⟨k, hk⟩ : ∃ k, min (b :: rest).length 7 = k + 1 := ⟨_, (Nat.succ_pred_eq_of_pos hpos).symm⟩
    rw [hk]; rfl
  have hne : (b :: rest).length ≠ 0 := by simp
  unfold gpio_demo_write
  simp only [hvalid, hne, hcap, copy_from_user, hsub, hhead]
  rcases hb with rfl | rfl
  · cases hio : st.is_output <;> by_cases hr : hw_ret = 0 <;>
      simp [set_dir_output_locked, hvalid, gpio_direction_output, parsed_value, hr, hio]
  · cases hio : st.is_output <;> by_cases hr : hw_ret = 0 <;>
      simp [set_dir_output_locked, hvalid, gpio_direction_output, parsed_value, hr, hio]

/-- C3: on a valid pin, with the hardware call succeeding, a write whose first
byte is `'0'` or `'1'` succeeds, leaves the direction flag at Output and the pin
at the parsed value (0 for `'0'`, 1 for `'1'`).  From Input the only library call
is one `gpio_direction_output` at the parsed value; from Output the only library
call is one `gpio_set_value`.  The bytes after the first do not influence the
resulting state.  Scenario: constructed as Input, `write("1")` returns 1,
leaves Output at level 1, and a read on a fresh session returns "1\n". -/
theorem write_digit_drives_output (gpio_is_valid : Int → Bool) (st : DriverState) (b : Char)
    (rest : List Char) (ppos : Int)
    (hvalid : gpio_is_valid st.gpio = true) (hb : b = '0' ∨ b = '1') :
    0 < (gpio_demo_write gpio_is_valid st (b :: rest) (b :: rest).length ppos 0).ret ∧
    (gpio_demo_write gpio_is_valid st (b :: rest) (b :: rest).length ppos 0).st.is_output
      = true ∧
    (gpio_demo_write gpio_is_valid st (b :: rest) (b :: rest).length ppos 0).st.hw.level
      = (if b = '0' then 0 else 1) ∧
    (gpio_demo_write gpio_is_valid st (b :: rest) (b :: rest).length ppos 0).st.gpio
      = st.gpio ∧
    (st.is_output = false →
      (gpio_demo_write gpio_is_valid st (b :: rest) (b :: rest).length ppos 0).st.hw.log
        = st.hw.log ++ [HwOp.direction_output st.gpio (if b = '0' then 0 else 1) 0] ∧
      (gpio_demo_write gpio_is_valid st (b :: rest) (b :: rest).length ppos 0).st.hw.dir
        = some Direction.Output) ∧
    (st.is_output = true →
      (gpio_demo_write gpio_is_valid st (b :: rest) (b :: rest).length ppos 0).st.hw.log
        = st.hw.log ++ [HwOp.set_value st.gpio (if b = '0' then 0 else 1)] ∧
      (gpio_demo_write gpio_is_valid st (b :: rest) (b :: rest).length ppos 0).st.hw.dir
        = st.hw.dir) ∧
    (∀ rest2 : List Char,
      (gpio_demo_write gpio_is_valid st (b :: rest2) (b :: rest2).length ppos 0).st
        = (gpio_demo_write gpio_is_valid st (b :: rest) (b :: rest).length ppos 0).st) ∧
    ((gpio_demo_init cfg4 gpio_is_valid_512 (World.boot cfg4 21 0 MiscState.empty)
        false 0 all_ok).2 = 0 ∧
      (drv_in 0).is_output = false ∧
      (gpio_demo_write gpio_is_valid_512 (drv_in 0) ['1'] 1 0 0).ret = 1 ∧
      (gpio_demo_write gpio_is_valid_512 (drv_in 0) ['1'] 1 0 0).st.is_output = true ∧
      (gpio_demo_write gpio_is_valid_512 (drv_in 0) ['1'] 1 0 0).st.hw.level = 1 ∧
      (gpio_demo_read gpio_is_valid_512
        (gpio_demo_write gpio_is_valid_512 (drv_in 0) ['1'] 1 0 0).st 100 100 0).out
        = ['1', '\n']) := by
  have e := write_digit_eq gpio_is_valid st b rest ppos 0 hvalid hb
  have hmin : (0 : Int) < ((min (b :: rest).length 7 : Nat) : Int) := by
    have : 0 < min (b :: rest).length 7 := by simp
    exact_mod_cast this
  refine ⟨?_, ?_, ?_, ?_, ?_, ?_, ?_, by decide⟩
  · rw [e]; cases st.is_output <;> simp
  · rw [e]; cases st.is_output <;> simp
  · rw [e]; cases st.is_output <;>
      simp [gpio_set_value, gpio_direction_output, parsed_value]
  · rw [e]; cases st.is_output <;> simp
  · intro hio
    rw [e]; simp [hio, gpio_direction_output, parsed_value]
  · intro hio
    rw [e]; simp [hio, gpio_set_value, parsed_value]
  · intro rest2
    rw [e, write_digit_eq gpio_is_valid st b rest2 ppos 0 hvalid hb]
    cases st.is_output <;> simp

theorem write_digit_drives_output_witness :
    (gpio_demo_write gpio_is_valid_512 drv_out1 ['0', 'x', 'y'] 3 0 0).st.is_output = true ∧
    (gpio_demo_write gpio_is_valid_512 drv_out1 ['0', 'x', 'y'] 3 0 0).st.hw.level = 0 := by
  have h := write_digit_drives_output gpio_is_valid_512 drv_out1 '0' ['x', 'y'] 0
    (by decide) (by decide)
  exact ⟨h.2.1, h.2.2.1⟩

/-- C4: on a valid pin, in any direction and at any level, a non-empty write
whose first byte is neither `'0'` nor `'1'` returns -EINVAL and leaves the whole
driver state (direction flag, level, and the log of library calls: no hardware
operation is performed) and the position unchanged. -/
theorem write_bad_byte_einval (gpio_is_valid : Int → Bool) (st : DriverState) (b : Char)
    (rest : List Char) (ppos : Int) (hw_ret : Int)
    (hvalid : gpio_is_valid st.gpio = true) (h0 : b ≠ '0') (h1 : b ≠ '1') :
    (gpio_demo_write gpio_is_valid st (b :: rest) (b :: rest).length ppos hw_ret).ret
      = -EINVAL ∧
    (gpio_demo_write gpio_is_valid st (b :: rest) (b :: rest).length ppos hw_ret).st = st ∧
    (gpio_demo_write gpio_is_valid st (b :: rest) (b :: rest).length ppos hw_ret).st.is_output
      = st.is_output ∧
    (gpio_demo_write gpio_is_valid st (b :: rest) (b :: rest).length ppos hw_ret).st.hw.level
      = st.hw.level ∧
    (gpio_demo_write gpio_is_valid st (b :: rest) (b :: rest).length ppos hw_ret).st.hw.log
      = st.hw.log ∧
    (gpio_demo_write gpio_is_valid st (b :: rest) (b :: rest).length ppos hw_ret).ppos
      = ppos := by
  have hcap : (if (b :: rest).length > 8 - 1 then 8 - 1 else (b :: rest).length)
      = min (b :: rest).length 7 := by
    simp only [List.length_cons]; split <;> omega
  have hpos : 0 < min (b :: rest).length 7 := by simp
  have hsub : min (b :: rest).length 7 - (b :: rest).length = 0 := by omega
  have hhead : (List.take (min (b :: rest).length 7) (b :: rest) ++ ['\x00']).headD '\x00'
      = b := by
    obtain ⟨k, hk⟩ : ∃ k, min (b :: rest).length 7 = k + 1 :=
      ⟨_, (Nat.succ_pred_eq_of_pos hpos).symm⟩
    rw [hk]; rfl
  have hne : (b :: rest).length ≠ 0 := by simp
  have e : gpio_demo_write gpio_is_valid st (b :: rest) (b :: rest).length ppos hw_ret
      = { ret := -EINVAL, ppos := ppos, out := [], st := st } := by
    unfold gpio_demo_write
    simp only [hvalid, hne, hcap, copy_from_user, hsub, hhead]
    simp [h0, h1]
  rw [e]
  exact ⟨rfl, rfl, rfl, rfl, rfl, rfl⟩

theorem write_bad_byte_einval_witness :
    (gpio_demo_write gpio_is_valid_512 drv_out1 ['x'] 1 0 0).ret = -22 ∧
    (gpio_demo_write gpio_is_valid_512 drv_out1 ['x'] 1 0 0).st = drv_out1 := by
  have h := write_bad_byte_einval gpio_is_valid_512 drv_out1 'x' [] 0 0
    (by decide) (by decide) (by decide)
  exact ⟨h.1, h.2.1⟩

/-! ## Properties of `gpio_demo_ioctl` -/

/-- On a valid pin `ioctl(SET_DIR_OUT)` is this result. -/
theorem ioctl_out_eq (gpio_is_valid : Int → Bool) (st : DriverState) (hw_ret : Int)
    (hvalid : gpio_is_valid st.gpio = true) :
    gpio_demo_ioctl gpio_is_valid st GPIODEMO_SET_DIR_OUT hw_ret =
      ({ st with
          hw := { level := if hw_ret = 0 then (if st.hw.level ≠ 0 then 1 else 0) else st.hw.level,
                  dir := if hw_ret = 0 then some Direction.Output else st.hw.dir,
                  requested := st.hw.requested,
                  log := st.hw.log ++ [HwOp.get_value st.gpio,
                    HwOp.direction_output st.gpio (if st.hw.level ≠ 0 then 1 else 0) hw_ret] },
          is_output := if hw_ret = 0 then true else st.is_output }, hw_ret) := by
  by_cases hr : hw_ret = 0 <;>
    simp [gpio_demo_ioctl, hvalid, set_dir_output_locked, gpio_get_value,
      gpio_direction_output, hr]

/-- On a valid pin `ioctl(SET_DIR_IN)` is this result. -/
theorem ioctl_in_eq (gpio_is_valid : Int → Bool) (st : DriverState) (hw_ret : Int)
    (hvalid : gpio_is_valid st.gpio = true) :
    gpio_demo_ioctl gpio_is_valid st GPIODEMO_SET_DIR_IN hw_ret =
      ({ st with
          hw := { st.hw with
                  dir := if hw_ret = 0 then some Direction.Input else st.hw.dir,
                  log := st.hw.log ++ [HwOp.direction_input st.gpio hw_ret] },
          is_output := if hw_ret = 0 then false else st.is_output }, hw_ret) := by
  have hne : GPIODEMO_SET_DIR_IN ≠ GPIODEMO_SET_DIR_OUT := by decide
  by_cases hr : hw_ret = 0 <;>
    simp [gpio_demo_ioctl, hvalid, set_dir_input_locked, gpio_direction_input, hr, hne]

/-- C5: on a valid pin, with the hardware calls succeeding, `ioctl(SET_DIR_OUT)`
returns 0 and ends with the direction flag and the line at Output, the line
driven at the logic level (0, or 1 for any non-zero reading) it had just before
the call: the single `gpio_direction_output` call made carries that level, so a
high line is never driven to 0.  `ioctl(SET_DIR_IN)` returns 0 and ends with the
direction flag and the line at Input.  In particular from Input with the level
high, SET_DIR_OUT gives Output at level 1 and a following SET_DIR_IN gives
Input. -/
theorem ioctl_direction_switch (gpio_is_valid : Int → Bool) (st : DriverState)
    (hvalid : gpio_is_valid st.gpio = true) :
    (gpio_demo_ioctl gpio_is_valid st GPIODEMO_SET_DIR_OUT 0).2 = 0 ∧
    (gpio_demo_ioctl gpio_is_valid st GPIODEMO_SET_DIR_OUT 0).1.is_output = true ∧
    (gpio_demo_ioctl gpio_is_valid st GPIODEMO_SET_DIR_OUT 0).1.hw.dir
      = some Direction.Output ∧
    (gpio_demo_ioctl gpio_is_valid st GPIODEMO_SET_DIR_OUT 0).1.hw.level
      = (if st.hw.level ≠ 0 then 1 else 0) ∧
    (st.hw.level = 0 ∨ st.hw.level = 1 →
      (gpio_demo_ioctl gpio_is_valid st GPIODEMO_SET_DIR_OUT 0).1.hw.level = st.hw.level) ∧
    (gpio_demo_ioctl gpio_is_valid st GPIODEMO_SET_DIR_OUT 0).1.hw.log
      = st.hw.log ++ [HwOp.get_value st.gpio,
          HwOp.direction_output st.gpio (if st.hw.level ≠ 0 then 1 else 0) 0] ∧
    (st.hw.level ≠ 0 →
      ∀ op ∈ ((gpio_demo_ioctl gpio_is_valid st GPIODEMO_SET_DIR_OUT 0).1.hw.log.drop
          st.hw.log.length),
        op ≠ HwOp.direction_output st.gpio 0 0 ∧ op ≠ HwOp.set_value st.gpio 0) ∧
    (gpio_demo_ioctl gpio_is_valid st GPIODEMO_SET_DIR_IN 0).2 = 0 ∧
    (gpio_demo_ioctl gpio_is_valid st GPIODEMO_SET_DIR_IN 0).1.is_output = false ∧
    (gpio_demo_ioctl gpio_is_valid st GPIODEMO_SET_DIR_IN 0).1.hw.dir
      = some Direction.Input ∧
    (st.is_output = false → st.hw.level ≠ 0 →
      (gpio_demo_ioctl gpio_is_valid st GPIODEMO_SET_DIR_OUT 0).1.is_output = true ∧
      (gpio_demo_ioctl gpio_is_valid st GPIODEMO_SET_DIR_OUT 0).1.hw.level = 1 ∧
      (gpio_demo_ioctl gpio_is_valid
        (gpio_demo_ioctl gpio_is_valid st GPIODEMO_SET_DIR_OUT 0).1
        GPIODEMO_SET_DIR_IN 0).2 = 0 ∧
      (gpio_demo_ioctl gpio_is_valid
        (gpio_demo_ioctl gpio_is_valid st GPIODEMO_SET_DIR_OUT 0).1
        GPIODEMO_SET_DIR_IN 0).1.is_output = false) := by
  have eo := ioctl_out_eq gpio_is_valid st 0 hvalid
  have ei := ioctl_in_eq gpio_is_valid st 0 hvalid
  have hv1 : gpio_is_valid (gpio_demo_ioctl gpio_is_valid st GPIODEMO_SET_DIR_OUT 0).1.gpio
      = true := by rw [eo]; exact hvalid
  have ei2 := ioctl_in_eq gpio_is_valid
    (gpio_demo_ioctl gpio_is_valid st GPIODEMO_SET_DIR_OUT 0).1 0 hv1
  refine ⟨?_, ?_, ?_, ?_, ?_, ?_, ?_, ?_, ?_, ?_, ?_⟩
  · rw [eo]
  · rw [eo]; simp
  · rw [eo]; simp
  · rw [eo]; simp
  · intro h
    rw [eo]
    rcases h with h | h <;> simp [h]
  · rw [eo]
  · intro h op hop
    rw [eo] at hop
    simp [h] at hop
    rcases hop with rfl | rfl <;> simp
  · rw [ei]
  · rw [ei]; simp
  · rw [ei]; simp
  · intro _ hl
    refine ⟨?_, ?_, ?_, ?_⟩
    · rw [eo]; simp
    · rw [eo]; simp [hl]
    · rw [ei2]
    · rw [ei2]; simp

theorem ioctl_direction_switch_witness :
    (drv_in 1).is_output = false ∧ (drv_in 1).hw.level = 1 ∧
    (gpio_demo_ioctl gpio_is_valid_512 (drv_in 1) GPIODEMO_SET_DIR_OUT 0).1.is_output = true ∧
    (gpio_demo_ioctl gpio_is_valid_512 (drv_in 1) GPIODEMO_SET_DIR_OUT 0).1.hw.level = 1 ∧
    (gpio_demo_ioctl gpio_is_valid_512
      (gpio_demo_ioctl gpio_is_valid_512 (drv_in 1) GPIODEMO_SET_DIR_OUT 0).1
      GPIODEMO_SET_DIR_IN 0).1.is_output = false := by
  have h := ioctl_direction_switch gpio_is_valid_512 (drv_in 1) (by decide)
  have h2 := h.2.2.2.2.2.2.2.2.2.2 (by decide) (by decide)
  exact ⟨by decide, by decide, h2.1, h2.2.1, h2.2.2.2⟩

/-- C6: the two defined commands are numbers 0 and 1 under the magic `'G'`; on a
valid pin every other command value makes `gpio_demo_ioctl` return -ENOTTY and
leave the whole driver state (direction flag, level, log of library calls)
unchanged. -/
theorem ioctl_unknown_enotty (gpio_is_valid : Int → Bool) (st : DriverState) (cmd : Nat)
    (hw_ret : Int) (hvalid : gpio_is_valid st.gpio = true)
    (hout : cmd ≠ GPIODEMO_SET_DIR_OUT) (hin : cmd ≠ GPIODEMO_SET_DIR_IN) :
    GPIODEMO_SET_DIR_OUT = _IO 'G'.toNat 0 ∧
    GPIODEMO_SET_DIR_IN = _IO 'G'.toNat 1 ∧
    (gpio_demo_ioctl gpio_is_valid st cmd hw_ret).2 = -ENOTTY ∧
    (gpio_demo_ioctl gpio_is_valid st cmd hw_ret).1 = st ∧
    (gpio_demo_ioctl gpio_is_valid st cmd hw_ret).1.is_output = st.is_output ∧
    (gpio_demo_ioctl gpio_is_valid st cmd hw_ret).1.hw.level = st.hw.level := by
  have e : gpio_demo_ioctl gpio_is_valid st cmd hw_ret = (st, -ENOTTY) := by
    simp [gpio_demo_ioctl, hvalid, hout, hin]
  rw [e]
  exact ⟨rfl, rfl, rfl, rfl, rfl, rfl⟩

theorem ioctl_unknown_enotty_witness :
    (gpio_demo_ioctl gpio_is_valid_512 drv_out1 ( _IO 'G'.toNat 2) 0).2 = -25 ∧
    (gpio_demo_ioctl gpio_is_valid_512 drv_out1 ( _IO 'G'.toNat 2) 0).1 = drv_out1 := by
  have h := ioctl_unknown_enotty gpio_is_valid_512 drv_out1 ( _IO 'G'.toNat 2) 0
    (by decide) (by decide) (by decide)
  exact ⟨h.2.2.1, h.2.2.2.1⟩

/-! ## Properties of `misc_register` and `misc_deregister` -/

/-! ## The bitmap scan -/

theorem find_first_zero_bit_le (addr : Finset Nat) (size : Nat) :
    find_first_zero_bit addr size ≤ size := by
  unfold find_first_zero_bit
  cases h : (List.range size).find? (fun i => decide (i ∉ addr)) with
  | none => simp
  | some i =>
    rw [List.find?_range_eq_some] at h
    simp only [Option.getD_some]
    have := h.2.1
    simp at this
    omega

/-- When a bit below `size` is clear, the scan returns the lowest clear index. -/
theorem find_first_zero_bit_of_clear (addr : Finset Nat) (size : Nat)
    (h : ∃ i, i < size ∧ i ∉ addr) :
    find_first_zero_bit addr size < size ∧
    find_first_zero_bit addr size ∉ addr ∧
    ∀ j, j < find_first_zero_bit addr size → j ∈ addr := by
  unfold find_first_zero_bit
  cases hf : (List.range size).find? (fun i => decide (i ∉ addr)) with
  | none =>
    rw [List.find?_range_eq_none] at hf
    obtain ⟨i, hi, hn⟩ := h
    have := hf i hi
    simp [hn] at this
  | some i =>
    rw [List.find?_range_eq_some] at hf
    simp only [Option.getD_some]
    obtain ⟨h1, h2, h3⟩ := hf
    refine ⟨by simpa using h2, by simpa using h1, ?_⟩
    intro j hj
    have := h3 j hj
    simpa using this

/-- When every bit below `size` is set, the scan returns `size`. -/
theorem find_first_zero_bit_of_full (addr : Finset Nat) (size : Nat)
    (h : ∀ i, i < size → i ∈ addr) :
    find_first_zero_bit addr size = size := by
  unfold find_first_zero_bit
  have : (List.range size).find? (fun i => decide (i ∉ addr)) = none := by
    rw [List.find?_range_eq_none]
    intro i hi
    simp [h i hi]
  rw [this]; rfl

/-- The lowest clear index is the only index that is clear with all lower ones set. -/
theorem find_first_zero_bit_eq (addr : Finset Nat) (size i : Nat)
    (hi : i < size) (hc : i ∉ addr) (hlow : ∀ j, j < i → j ∈ addr) :
    find_first_zero_bit addr size = i := by
  obtain ⟨h1, h2, h3⟩ := find_first_zero_bit_of_clear addr size ⟨i, hi, hc⟩
  rcases Nat.lt_trichotomy (find_first_zero_bit addr size) i with h | h | h
  · exact absurd (hlow _ h) h2
  · exact h
  · exact absurd (h3 _ h) hc

/-! ## `misc_register` case by case -/

theorem misc_register_full (cfg : MiscConfig) (s : MiscState) (misc : miscdevice)
    (map_err create_err : Int) (hdyn : misc.minor = cfg.MISC_DYNAMIC_MINOR)
    (hfull : ∀ i, i < cfg.DYNAMIC_MINORS → i ∈ s.misc_minors) :
    misc_register cfg s misc map_err create_err = (s, misc, -EBUSY) := by
  simp [misc_register, hdyn, find_first_zero_bit_of_full _ _ hfull]

theorem misc_register_static (cfg : MiscConfig) (s : MiscState) (misc : miscdevice)
    (map_err create_err : Int) (hst : misc.minor ≠ cfg.MISC_DYNAMIC_MINOR) :
    misc_register cfg s misc map_err create_err =
      bind_and_publish cfg s misc map_err create_err := by
  by_cases hm : map_err = 0 <;> by_cases hc : create_err = 0 <;>
    simp [misc_register, bind_and_publish, hst, cdev_add, kobj_map, cdev_init, device_create,
      cdev_del, IS_ERR, PTR_ERR, MKDEV, hm, hc]

theorem misc_register_dynamic (cfg : MiscConfig) (s : MiscState) (misc : miscdevice)
    (map_err create_err : Int) (hdyn : misc.minor = cfg.MISC_DYNAMIC_MINOR)
    (hfree : find_first_zero_bit s.misc_minors cfg.DYNAMIC_MINORS < cfg.DYNAMIC_MINORS) :
    misc_register cfg s misc map_err create_err =
      bind_and_publish cfg
        (after_alloc cfg s misc (find_first_zero_bit s.misc_minors cfg.DYNAMIC_MINORS)).1
        (after_alloc cfg s misc (find_first_zero_bit s.misc_minors cfg.DYNAMIC_MINORS)).2
        map_err create_err := by
  have hnot : ¬ (cfg.DYNAMIC_MINORS ≤ find_first_zero_bit s.misc_minors cfg.DYNAMIC_MINORS) := by
    omega
  by_cases hm : map_err = 0 <;> by_cases hc : create_err = 0 <;>
    simp [misc_register, bind_and_publish, after_alloc, hdyn, hnot, cdev_add, kobj_map,
      cdev_init, device_create, cdev_del, IS_ERR, PTR_ERR, MKDEV, hm, hc]

/-- A failed dynamic registration on a registry with a free bit: whichever of the
two later steps fails, the call fails with that step's error, the bit found by
the scan stays set, the dispatch table is as before, and the descriptor keeps
the assigned minor. -/
theorem misc_register_failure_state (cfg : MiscConfig) (s : MiscState) (misc : miscdevice)
    (map_err create_err : Int) (hdyn : misc.minor = cfg.MISC_DYNAMIC_MINOR)
    (hfree : ∃ i, i < cfg.DYNAMIC_MINORS ∧ i ∉ s.misc_minors)
    (hfail : map_err ≠ 0 ∨ create_err ≠ 0) :
    (misc_register cfg s misc map_err create_err).2.2 ≠ 0 ∧
    (misc_register cfg s misc map_err create_err).1.misc_minors
      = insert (find_first_zero_bit s.misc_minors cfg.DYNAMIC_MINORS) s.misc_minors ∧
    (misc_register cfg s misc map_err create_err).1.misc_minors ≠ s.misc_minors ∧
    (misc_register cfg s misc map_err create_err).1.cdev_map = s.cdev_map ∧
    (misc_register cfg s misc map_err create_err).2.1.minor
      = cfg.DYNAMIC_MINOR_BASE + find_first_zero_bit s.misc_minors cfg.DYNAMIC_MINORS := by
  obtain ⟨hlt, hnot, -⟩ := find_first_zero_bit_of_clear _ _ hfree
  rw [misc_register_dynamic cfg s misc map_err create_err hdyn hlt]
  have hne : insert (find_first_zero_bit s.misc_minors cfg.DYNAMIC_MINORS) s.misc_minors
      ≠ s.misc_minors := by
    intro h
    have hmem := Finset.mem_insert_self
      (find_first_zero_bit s.misc_minors cfg.DYNAMIC_MINORS) s.misc_minors
    rw [h] at hmem
    exact hnot hmem
  by_cases hm : map_err = 0
  · have hc : create_err ≠ 0 := by
      rcases hfail with h | h
      · exact absurd hm h
      · exact h
    simp [bind_and_publish, after_alloc, set_bit, hm, hc, hne]
  · simp [bind_and_publish, after_alloc, set_bit, hm, hne]

/-- C7 (the code at the failing inputs): on the empty registry, a dynamic
registration whose `cdev_add` fails with -ENOMEM returns -ENOMEM and leaves bit
0 of the bitmap set, so the bitmap differs from the one before the call; the
same holds when `device_create` fails instead.  In both cases no dispatch
binding is left, and the log shows that no `clear_bit` was done. -/
theorem misc_register_failure_keeps_bit :
    (misc_register cfg4 MiscState.empty (gpio_demo_miscdev cfg4) (-ENOMEM) 0).2.2 = -ENOMEM ∧
    (misc_register cfg4 MiscState.empty (gpio_demo_miscdev cfg4) (-ENOMEM) 0).1.misc_minors
      = {0} ∧
    (misc_register cfg4 MiscState.empty (gpio_demo_miscdev cfg4) (-ENOMEM) 0).1.misc_minors
      ≠ MiscState.empty.misc_minors ∧
    (misc_register cfg4 MiscState.empty (gpio_demo_miscdev cfg4) (-ENOMEM) 0).1.cdev_map = [] ∧
    (misc_register cfg4 MiscState.empty (gpio_demo_miscdev cfg4) (-ENOMEM) 0).1.log
      = [RegOp.set_bit 0, RegOp.kobj_map (10, 128) (-ENOMEM)] ∧
    (misc_register cfg4 MiscState.empty (gpio_demo_miscdev cfg4) 0 (-ENOMEM)).2.2 = -ENOMEM ∧
    (misc_register cfg4 MiscState.empty (gpio_demo_miscdev cfg4) 0 (-ENOMEM)).1.misc_minors
      = {0} ∧
    (misc_register cfg4 MiscState.empty (gpio_demo_miscdev cfg4) 0 (-ENOMEM)).1.misc_minors
      ≠ MiscState.empty.misc_minors ∧
    (misc_register cfg4 MiscState.empty (gpio_demo_miscdev cfg4) 0 (-ENOMEM)).1.cdev_map = [] ∧
    (misc_register cfg4 MiscState.empty (gpio_demo_miscdev cfg4) 0 (-ENOMEM)).1.log
      = [RegOp.set_bit 0, RegOp.kobj_map (10, 128) 0,
         RegOp.device_create (10, 128) "gpio_demo" (-ENOMEM), RegOp.cdev_del (10, 128)] := by
  decide

/-- C8: first-fit with exhaustion.  For a descriptor requesting a dynamic minor,
whatever the later steps do: if a bit below `DYNAMIC_MINORS` is clear, there is
an index `i` below `DYNAMIC_MINORS` that is clear with all lower bits set (the
lowest clear index) such that the descriptor's minor becomes
`DYNAMIC_MINOR_BASE + i` and the bitmap becomes the old one with exactly bit `i`
added; if all bits below `DYNAMIC_MINORS` are set, the call returns -EBUSY and
leaves registry (bitmap, dispatch table, namespace, log) and descriptor as they
were. -/
theorem misc_register_first_fit (cfg : MiscConfig) (s : MiscState) (misc : miscdevice)
    (map_err create_err : Int) (hdyn : misc.minor = cfg.MISC_DYNAMIC_MINOR) :
    ((∃ i, i < cfg.DYNAMIC_MINORS ∧ i ∉ s.misc_minors) →
      ∃ i, i < cfg.DYNAMIC_MINORS ∧ i ∉ s.misc_minors ∧ (∀ j, j < i → j ∈ s.misc_minors) ∧
        (misc_register cfg s misc map_err create_err).2.1.minor = cfg.DYNAMIC_MINOR_BASE + i ∧
        (misc_register cfg s misc map_err create_err).1.misc_minors = insert i s.misc_minors ∧
        i ∈ (misc_register cfg s misc map_err create_err).1.misc_minors ∧
        (∀ j, j ≠ i → (j ∈ (misc_register cfg s misc map_err create_err).1.misc_minors ↔
          j ∈ s.misc_minors))) ∧
    ((∀ i, i < cfg.DYNAMIC_MINORS → i ∈ s.misc_minors) →
      (misc_register cfg s misc map_err create_err).2.2 = -EBUSY ∧
      (misc_register cfg s misc map_err create_err).1 = s ∧
      (misc_register cfg s misc map_err create_err).2.1 = misc) := by
  constructor
  · intro hfree
    obtain ⟨hlt, hnot, hlow⟩ := find_first_zero_bit_of_clear _ _ hfree
    refine ⟨find_first_zero_bit s.misc_minors cfg.DYNAMIC_MINORS, hlt, hnot, hlow, ?_⟩
    rw [misc_register_dynamic cfg s misc map_err create_err hdyn hlt]
    have hbm : (bind_and_publish cfg
        (after_alloc cfg s misc (find_first_zero_bit s.misc_minors cfg.DYNAMIC_MINORS)).1
        (after_alloc cfg s misc (find_first_zero_bit s.misc_minors cfg.DYNAMIC_MINORS)).2
        map_err create_err).1.misc_minors
        = insert (find_first_zero_bit s.misc_minors cfg.DYNAMIC_MINORS) s.misc_minors := by
      by_cases hm : map_err = 0 <;> by_cases hc : create_err = 0 <;>
        simp [bind_and_publish, after_alloc, set_bit, hm, hc]
    have hminor : (bind_and_publish cfg
        (after_alloc cfg s misc (find_first_zero_bit s.misc_minors cfg.DYNAMIC_MINORS)).1
        (after_alloc cfg s misc (find_first_zero_bit s.misc_minors cfg.DYNAMIC_MINORS)).2
        map_err create_err).2.1.minor
        = cfg.DYNAMIC_MINOR_BASE + find_first_zero_bit s.misc_minors cfg.DYNAMIC_MINORS := by
      by_cases hm : map_err = 0 <;> by_cases hc : create_err = 0 <;>
        simp [bind_and_publish, after_alloc, hm, hc]
    refine ⟨hminor, hbm, ?_, ?_⟩
    · rw [hbm]; exact Finset.mem_insert_self _ _
    · intro j hj
      rw [hbm, Finset.mem_insert]
      constructor
      · rintro (h | h)
        · exact absurd h hj
        · exact h
      · exact fun h => Or.inr h
  · intro hfull
    rw [misc_register_full cfg s misc map_err create_err hdyn hfull]
    exact ⟨rfl, rfl, rfl⟩

/-- A successful dynamic registration on a registry whose bits below
`DYNAMIC_MINORS` are exactly those below `k`. -/
theorem misc_register_next (cfg : MiscConfig) (s : MiscState) (misc : miscdevice) (k : Nat)
    (hdyn : misc.minor = cfg.MISC_DYNAMIC_MINOR) (hk : k < cfg.DYNAMIC_MINORS)
    (hbits : ∀ j, j < cfg.DYNAMIC_MINORS → (j ∈ s.misc_minors ↔ j < k)) :
    (misc_register cfg s misc 0 0).2.2 = 0 ∧
    (misc_register cfg s misc 0 0).2.1.minor = cfg.DYNAMIC_MINOR_BASE + k ∧
    (misc_register cfg s misc 0 0).1.misc_minors = insert k s.misc_minors := by
  have hc : k ∉ s.misc_minors := fun h => absurd ((hbits k hk).1 h) (Nat.lt_irrefl k)
  have hlow : ∀ j, j < k → j ∈ s.misc_minors := fun j hj => (hbits j (by omega)).2 hj
  have hffz := find_first_zero_bit_eq s.misc_minors cfg.DYNAMIC_MINORS k hk hc hlow
  rw [misc_register_dynamic cfg s misc 0 0 hdyn (by rw [hffz]; exact hk), hffz]
  simp [bind_and_publish, after_alloc, set_bit]

theorem register_all_from (cfg : MiscConfig) :
    ∀ (descs : List miscdevice) (s : MiscState) (k : Nat),
      (∀ j, j < cfg.DYNAMIC_MINORS → (j ∈ s.misc_minors ↔ j < k)) →
      k + descs.length ≤ cfg.DYNAMIC_MINORS →
      (∀ m ∈ descs, m.minor = cfg.MISC_DYNAMIC_MINOR) →
      (∀ x ∈ (register_all cfg s descs).2, x.2 = 0) ∧
      (register_all cfg s descs).2.map (fun x => x.1.minor)
        = (List.range' k descs.length).map (fun i => cfg.DYNAMIC_MINOR_BASE + i) ∧
      (∀ j, j < cfg.DYNAMIC_MINORS →
        (j ∈ (register_all cfg s descs).1.misc_minors ↔ j < k + descs.length)) := by
  intro descs
  induction descs with
  | nil =>
    intro s k hbits _ _
    simpa [register_all] using hbits
  | cons m ms ih =>
    intro s k hbits hlen hdyn
    have hk : k < cfg.DYNAMIC_MINORS := by simp only [List.length_cons] at hlen; omega
    obtain ⟨hret, hminor, hbm⟩ :=
      misc_register_next cfg s m k (hdyn m (List.mem_cons_self _ _)) hk hbits
    have hbits' : ∀ j, j < cfg.DYNAMIC_MINORS →
        (j ∈ (misc_register cfg s m 0 0).1.misc_minors ↔ j < k + 1) := by
      intro j hj
      rw [hbm, Finset.mem_insert, hbits j hj]
      omega
    obtain ⟨h1, h2, h3⟩ := ih (misc_register cfg s m 0 0).1 (k + 1) hbits'
      (by simp only [List.length_cons] at hlen; omega)
      (fun x hx => hdyn x (List.mem_cons_of_mem _ hx))
    refine ⟨?_, ?_, ?_⟩
    · intro x hx
      simp only [register_all, List.mem_cons] at hx
      rcases hx with rfl | hx
      · exact hret
      · exact h1 x hx
    · simp only [register_all, List.map_cons, List.length_cons, List.range'_succ, h2, hminor]
    · intro j hj
      simp only [register_all, List.length_cons]
      rw [h3 j hj]
      omega

/-- C9: starting from the empty registry, `DYNAMIC_MINORS` successive
registrations of descriptors requesting a dynamic minor (binding and publishing
succeeding, nothing deregistered in between) all return 0, are assigned the
minors `DYNAMIC_MINOR_BASE + 0, ..., DYNAMIC_MINOR_BASE + (DYNAMIC_MINORS - 1)`
in this order, which are pairwise distinct, and every further dynamic
registration returns -EBUSY and leaves the registry as it is. -/
theorem register_all_distinct_then_busy (cfg : MiscConfig) (descs : List miscdevice)
    (hlen : descs.length = cfg.DYNAMIC_MINORS)
    (hdyn : ∀ m ∈ descs, m.minor = cfg.MISC_DYNAMIC_MINOR) :
    (register_all cfg MiscState.empty descs).2.length = cfg.DYNAMIC_MINORS ∧
    (∀ x ∈ (register_all cfg MiscState.empty descs).2, x.2 = 0) ∧
    (register_all cfg MiscState.empty descs).2.map (fun x => x.1.minor)
      = (List.range cfg.DYNAMIC_MINORS).map (fun i => cfg.DYNAMIC_MINOR_BASE + i) ∧
    ((register_all cfg MiscState.empty descs).2.map (fun x => x.1.minor)).Nodup ∧
    (∀ (m : miscdevice) (map_err create_err : Int), m.minor = cfg.MISC_DYNAMIC_MINOR →
      (misc_register cfg (register_all cfg MiscState.empty descs).1 m map_err create_err).2.2
        = -EBUSY ∧
      (misc_register cfg (register_all cfg MiscState.empty descs).1 m map_err create_err).1
        = (register_all cfg MiscState.empty descs).1) := by
  have h0 : ∀ j, j < cfg.DYNAMIC_MINORS → (j ∈ MiscState.empty.misc_minors ↔ j < 0) := by
    intro j _
    simp [MiscState.empty]
  obtain ⟨h1, h2, h3⟩ := register_all_from cfg descs MiscState.empty 0 h0 (by omega) hdyn
  have hmap : (register_all cfg MiscState.empty descs).2.map (fun x => x.1.minor)
      = (List.range cfg.DYNAMIC_MINORS).map (fun i => cfg.DYNAMIC_MINOR_BASE + i) := by
    rw [h2, hlen, List.range_eq_range']
  refine ⟨?_, h1, hmap, ?_, ?_⟩
  · have := congrArg List.length hmap
    simpa using this
  · rw [hmap]
    exact (List.nodup_range _).map (fun a b h => Nat.add_left_cancel h)
  · intro m me ce hm
    have hfull : ∀ i, i < cfg.DYNAMIC_MINORS →
        i ∈ (register_all cfg MiscState.empty descs).1.misc_minors := by
      intro i hi
      rw [h3 i hi]
      omega
    rw [misc_register_full cfg _ m me ce hm hfull]
    exact ⟨rfl, rfl⟩

theorem register_all_distinct_then_busy_witness :
    (register_all cfg4 MiscState.empty (List.replicate 4 (gpio_demo_miscdev cfg4))).2.map
        (fun x => x.1.minor) = [128, 129, 130, 131] ∧
    (misc_register cfg4
      (register_all cfg4 MiscState.empty (List.replicate 4 (gpio_demo_miscdev cfg4))).1
      (gpio_demo_miscdev cfg4) 0 0).2.2 = -16 := by
  have h := register_all_distinct_then_busy cfg4 (List.replicate 4 (gpio_demo_miscdev cfg4))
    (by decide) (by decide)
  exact ⟨by rw [h.2.2.1]; decide, (h.2.2.2.2 (gpio_demo_miscdev cfg4) 0 0 rfl).1⟩

theorem misc_register_first_fit_witness :
    (∃ i, i < 4 ∧ i ∉ ({0, 2} : Finset Nat) ∧ (∀ j, j < i → j ∈ ({0, 2} : Finset Nat)) ∧
      (misc_register cfg4 { MiscState.empty with misc_minors := {0, 2} }
        (gpio_demo_miscdev cfg4) 0 0).2.1.minor = 128 + i ∧
      (misc_register cfg4 { MiscState.empty with misc_minors := {0, 2} }
        (gpio_demo_miscdev cfg4) 0 0).1.misc_minors = insert i {0, 2}) ∧
    (misc_register cfg4 { MiscState.empty with misc_minors := {0, 1, 2, 3} }
      (gpio_demo_miscdev cfg4) 0 0).2.2 = -16 := by
  have h1 := (misc_register_first_fit cfg4 { MiscState.empty with misc_minors := {0, 2} }
    (gpio_demo_miscdev cfg4) 0 0 rfl).1 ⟨1, by decide, by decide⟩
  have h2 := (misc_register_first_fit cfg4 { MiscState.empty with misc_minors := {0, 1, 2, 3} }
    (gpio_demo_miscdev cfg4) 0 0 rfl).2 (by decide)
  obtain ⟨i, a, b, c, d, e, -⟩ := h1
  exact ⟨⟨i, a, b, c, d, e⟩, h2.1⟩

theorem countP_eraseP_of_imp {α : Type} (p q : α → Bool) (hq : ∀ x, q x = true → p x = true) :
    ∀ l : List α, (∃ x ∈ l, q x = true) → (l.eraseP q).countP p + 1 = l.countP p := by
  intro l
  induction l with
  | nil => intro h; simp at h
  | cons a t ih =>
    intro h
    by_cases ha : q a = true
    · simp [List.eraseP_cons_of_pos ha, List.countP_cons, hq a ha]
    · have hex : ∃ x ∈ t, q x = true := by
        obtain ⟨x, hx, hqx⟩ := h
        rcases List.mem_cons.1 hx with rfl | hx
        · exact absurd hqx ha
        · exact ⟨x, hx, hqx⟩
      rw [List.eraseP_cons_of_neg ha, List.countP_cons, List.countP_cons, ← ih hex]
      omega

theorem countP_eraseP_of_not {α : Type} (p q : α → Bool) (hq : ∀ x, q x = true → p x = false) :
    ∀ l : List α, (l.eraseP q).countP p = l.countP p := by
  intro l
  induction l with
  | nil => simp
  | cons a t ih =>
    by_cases ha : q a = true
    · simp [List.eraseP_cons_of_pos ha, List.countP_cons, hq a ha]
    · rw [List.eraseP_cons_of_neg ha, List.countP_cons, List.countP_cons, ih]

theorem bind_and_publish_bits (cfg : MiscConfig) (s : MiscState) (misc : miscdevice)
    (map_err create_err : Int) :
    (bind_and_publish cfg s misc map_err create_err).1.misc_minors = s.misc_minors := by
  by_cases hm : map_err = 0 <;> by_cases hc : create_err = 0 <;>
    simp [bind_and_publish, hm, hc]

theorem bind_and_publish_count (cfg : MiscConfig) (s : MiscState) (misc : miscdevice)
    (map_err create_err : Int) (minor : Nat) :
    leased_count cfg (bind_and_publish cfg s misc map_err create_err).1 minor
      = leased_count cfg s minor +
        (if map_err = 0 ∧ create_err = 0 ∧ misc.minor = minor then 1 else 0) := by
  by_cases hm : map_err = 0 <;> by_cases hc : create_err = 0 <;>
    by_cases hx : misc.minor = minor <;>
    simp [bind_and_publish, leased_count, MKDEV, hm, hc, hx, List.countP_cons]

theorem bits_match_empty (cfg : MiscConfig) : bits_match_bindings cfg MiscState.empty := by
  intro i _
  simp [MiscState.empty, leased_count]

theorem bits_match_register_static (cfg : MiscConfig) (s : MiscState) (misc : miscdevice)
    (map_err create_err : Int) (h : bits_match_bindings cfg s)
    (hst : misc.minor ≠ cfg.MISC_DYNAMIC_MINOR) (hlow : misc.minor < cfg.DYNAMIC_MINOR_BASE) :
    bits_match_bindings cfg (misc_register cfg s misc map_err create_err).1 := by
  intro i hi
  rw [misc_register_static cfg s misc map_err create_err hst, bind_and_publish_bits,
    bind_and_publish_count]
  have hne : misc.minor ≠ cfg.DYNAMIC_MINOR_BASE + i := by omega
  simpa [hne] using h i hi

theorem bits_match_register_dynamic (cfg : MiscConfig) (s : MiscState) (misc : miscdevice)
    (h : bits_match_bindings cfg s) (hdyn : misc.minor = cfg.MISC_DYNAMIC_MINOR) :
    bits_match_bindings cfg (misc_register cfg s misc 0 0).1 := by
  by_cases hfull : ∀ i, i < cfg.DYNAMIC_MINORS → i ∈ s.misc_minors
  · rw [misc_register_full cfg s misc 0 0 hdyn hfull]
    exact h
  · have hfree : ∃ i, i < cfg.DYNAMIC_MINORS ∧ i ∉ s.misc_minors := by
      by_contra hno
      exact hfull (fun i hi => by_contra (fun hni => hno ⟨i, hi, hni⟩))
    obtain ⟨hlt, hnot, -⟩ := find_first_zero_bit_of_clear _ _ hfree
    intro i hi
    rw [misc_register_dynamic cfg s misc 0 0 hdyn hlt, bind_and_publish_bits,
      bind_and_publish_count]
    have hcnt : ∀ m, leased_count cfg
        (after_alloc cfg s misc (find_first_zero_bit s.misc_minors cfg.DYNAMIC_MINORS)).1 m
        = leased_count cfg s m := fun m => rfl
    rw [hcnt]
    simp only [after_alloc, set_bit, Finset.mem_insert, true_and]
    by_cases hii : i = find_first_zero_bit s.misc_minors cfg.DYNAMIC_MINORS
    · subst hii
      have h0 := (h _ hlt).2 hnot
      simp [h0]
    · have hne : ¬ (cfg.DYNAMIC_MINOR_BASE +
          find_first_zero_bit s.misc_minors cfg.DYNAMIC_MINORS = cfg.DYNAMIC_MINOR_BASE + i) := by
        omega
      simpa [hii, hne] using h i hi

theorem bits_match_deregister (cfg : MiscConfig) (s : MiscState) (misc : miscdevice)
    (h : bits_match_bindings cfg s) (hreg : currently_registered cfg s misc) :
    bits_match_bindings cfg (misc_deregister cfg s misc).1 := by
  obtain ⟨hdev, hcount, b, hb, hbdev, hbrange⟩ := hreg
  intro i hi
  have hmap : (misc_deregister cfg s misc).1.cdev_map
      = s.cdev_map.eraseP (fun b => decide (b.dev = misc.cdev.dev ∧ b.range = misc.cdev.count)) := by
    unfold misc_deregister
    by_cases hge : misc.minor ≥ cfg.DYNAMIC_MINOR_BASE <;>
      simp [hge, cdev_del, device_destroy]
  have hbits : (misc_deregister cfg s misc).1.misc_minors
      = if misc.minor ≥ cfg.DYNAMIC_MINOR_BASE
        then s.misc_minors.erase (misc.minor - cfg.DYNAMIC_MINOR_BASE) else s.misc_minors := by
    unfold misc_deregister
    by_cases hge : misc.minor ≥ cfg.DYNAMIC_MINOR_BASE <;>
      simp [hge, cdev_del, device_destroy, clear_bit]
  have hex : ∃ x ∈ s.cdev_map,
      (fun b : Probe => decide (b.dev = misc.cdev.dev ∧ b.range = misc.cdev.count)) x = true :=
    ⟨b, hb, by simp [hbdev, hbrange, hcount]⟩
  by_cases hm : misc.minor = cfg.DYNAMIC_MINOR_BASE + i
  · have hstep := countP_eraseP_of_imp
      (fun b : Probe => decide (b.dev = MKDEV cfg.MISC_MAJOR (cfg.DYNAMIC_MINOR_BASE + i)))
      (fun b : Probe => decide (b.dev = misc.cdev.dev ∧ b.range = misc.cdev.count))
      (by
        intro x hx
        simp only [decide_eq_true_eq] at hx ⊢
        rw [hx.1, hdev, hm])
      s.cdev_map hex
    have hge : misc.minor ≥ cfg.DYNAMIC_MINOR_BASE := by omega
    have hidx : misc.minor - cfg.DYNAMIC_MINOR_BASE = i := by omega
    have hone : leased_count cfg s (cfg.DYNAMIC_MINOR_BASE + i) = 1 := by
      by_cases hbit : i ∈ s.misc_minors
      · exact (h i hi).1 hbit
      · have h0 := (h i hi).2 hbit
        unfold leased_count at h0
        omega
    have hzero : leased_count cfg (misc_deregister cfg s misc).1 (cfg.DYNAMIC_MINOR_BASE + i)
        = 0 := by
      unfold leased_count at hone ⊢
      rw [hmap]
      omega
    rw [hbits, if_pos hge, hidx, hzero]
    simp
  · have hstep := countP_eraseP_of_not
      (fun b : Probe => decide (b.dev = MKDEV cfg.MISC_MAJOR (cfg.DYNAMIC_MINOR_BASE + i)))
      (fun b : Probe => decide (b.dev = misc.cdev.dev ∧ b.range = misc.cdev.count))
      (by
        intro x hx
        simp only [decide_eq_true_eq, decide_eq_false_iff_not] at hx ⊢
        rw [hx.1, hdev]
        intro heq
        exact hm (by simpa [MKDEV] using heq))
      s.cdev_map
    have hsame : leased_count cfg (misc_deregister cfg s misc).1 (cfg.DYNAMIC_MINOR_BASE + i)
        = leased_count cfg s (cfg.DYNAMIC_MINOR_BASE + i) := by
      unfold leased_count
      rw [hmap]
      exact hstep
    have hmem : i ∈ (misc_deregister cfg s misc).1.misc_minors ↔ i ∈ s.misc_minors := by
      rw [hbits]
      split
      · rw [Finset.mem_erase]
        constructor
        · exact fun hh => hh.2
        · exact fun hh => ⟨by omega, hh⟩
      · exact Iff.rfl
    rw [hsame, hmem]
    exact h i hi

theorem bits_match_of_orderly (cfg : MiscConfig) (s : MiscState)
    (h : OrderlyReachable cfg s) : bits_match_bindings cfg s := by
  induction h with
  | empty => exact bits_match_empty cfg
  | register_dynamic s misc _ hdyn ih => exact bits_match_register_dynamic cfg s misc ih hdyn
  | register_static s misc me ce _ hst hlow ih =>
    exact bits_match_register_static cfg s misc me ce ih hst hlow
  | deregister s misc _ hreg ih => exact bits_match_deregister cfg s misc ih hreg

/-- C10 as stated fails: registering a descriptor with the explicit minor 128
(`DYNAMIC_MINOR_BASE + 0`) on the empty registry succeeds and binds that minor
to one live device record, while bit 0 of the bitmap stays clear. -/
theorem minor_bitmap_inv_fails :
    ¬ (∀ s, Reachable cfg4 s → minor_bitmap_inv cfg4 s) := by
  intro h
  have h1 := h _ (Reachable.register MiscState.empty static_128 0 0 Reachable.empty) 0
    (by decide)
  revert h1
  decide

/-- C10 (amended): in every state reachable from the empty registry by dynamic
registrations whose binding and publishing succeed (the call succeeds or reports
exhaustion), registrations with an explicit minor below `DYNAMIC_MINOR_BASE`
(succeeding or failing), and deregistrations of a device registered at that
moment, a bit `i` below `DYNAMIC_MINORS` is set if and only if exactly one live
device record holds the minor `DYNAMIC_MINOR_BASE + i`. -/
theorem minor_bitmap_inv_of_orderly (cfg : MiscConfig) (s : MiscState)
    (h : OrderlyReachable cfg s) : minor_bitmap_inv cfg s := by
  intro i hi
  obtain ⟨h1, h0⟩ := bits_match_of_orderly cfg s h i hi
  constructor
  · exact h1
  · intro hc
    by_contra hn
    rw [h0 hn] at hc
    exact absurd hc (by decide)

theorem minor_bitmap_inv_of_orderly_witness :
    minor_bitmap_inv cfg4
      (misc_deregister cfg4
        (misc_register cfg4
          (misc_register cfg4 MiscState.empty (gpio_demo_miscdev cfg4) 0 0).1
          (gpio_demo_miscdev cfg4) 0 0).1
        (misc_register cfg4 MiscState.empty (gpio_demo_miscdev cfg4) 0 0).2.1).1 :=
  minor_bitmap_inv_of_orderly cfg4 _
    (OrderlyReachable.deregister _ _
      (OrderlyReachable.register_dynamic _ _
        (OrderlyReachable.register_dynamic _ _ OrderlyReachable.empty rfl) rfl)
      (by unfold currently_registered; decide))

/-! ## Deregistration, round trip and the descriptor -/

/-- `misc_deregister` written out on the fields of the registry. -/
theorem misc_deregister_eq (cfg : MiscConfig) (s : MiscState) (misc : miscdevice) :
    misc_deregister cfg s misc =
      ({ misc_minors := if cfg.DYNAMIC_MINOR_BASE ≤ misc.minor
            then s.misc_minors.erase (misc.minor - cfg.DYNAMIC_MINOR_BASE) else s.misc_minors,
         cdev_map := s.cdev_map.eraseP
            (fun b => decide (b.dev = misc.cdev.dev ∧ b.range = misc.cdev.count)),
         misc_class := s.misc_class.eraseP
            (fun e => decide (e.1 = MKDEV cfg.MISC_MAJOR misc.minor)),
         log := s.log ++ [RegOp.device_destroy (MKDEV cfg.MISC_MAJOR misc.minor),
              RegOp.cdev_del misc.cdev.dev] ++
            (if cfg.DYNAMIC_MINOR_BASE ≤ misc.minor
              then [RegOp.clear_bit (misc.minor - cfg.DYNAMIC_MINOR_BASE)] else []) }, 0) := by
  unfold misc_deregister
  by_cases hge : cfg.DYNAMIC_MINOR_BASE ≤ misc.minor <;>
    simp [hge, cdev_del, device_destroy, clear_bit]

/-- A dynamic registration that returns 0 found a clear bit, and both later steps
succeeded. -/
theorem misc_register_dynamic_ok (cfg : MiscConfig) (s : MiscState) (misc : miscdevice)
    (map_err create_err : Int) (hdyn : misc.minor = cfg.MISC_DYNAMIC_MINOR)
    (hok : (misc_register cfg s misc map_err create_err).2.2 = 0) :
    find_first_zero_bit s.misc_minors cfg.DYNAMIC_MINORS < cfg.DYNAMIC_MINORS ∧
    map_err = 0 ∧ create_err = 0 := by
  by_cases hfull : ∀ i, i < cfg.DYNAMIC_MINORS → i ∈ s.misc_minors
  · rw [misc_register_full cfg s misc map_err create_err hdyn hfull] at hok
    simp [EBUSY] at hok
  · have hfree : ∃ i, i < cfg.DYNAMIC_MINORS ∧ i ∉ s.misc_minors := by
      by_contra hno
      exact hfull (fun i hi => by_contra (fun hni => hno ⟨i, hi, hni⟩))
    obtain ⟨hlt, -, -⟩ := find_first_zero_bit_of_clear _ _ hfree
    rw [misc_register_dynamic cfg s misc map_err create_err hdyn hlt] at hok
    refine ⟨hlt, ?_, ?_⟩
    · by_contra hm
      simp [bind_and_publish, hm] at hok
    · by_contra hc
      by_cases hm : map_err = 0
      · simp [bind_and_publish, hm, hc] at hok
      · simp [bind_and_publish, hm] at hok

/-- An index below `size` returned by the scan is a clear bit. -/
theorem find_first_zero_bit_not_mem (addr : Finset Nat) (size : Nat)
    (hlt : find_first_zero_bit addr size < size) :
    find_first_zero_bit addr size ∉ addr := by
  by_cases hfull : ∀ i, i < size → i ∈ addr
  · rw [find_first_zero_bit_of_full addr size hfull] at hlt
    exact absurd hlt (Nat.lt_irrefl _)
  · have hfree : ∃ i, i < size ∧ i ∉ addr := by
      by_contra hno
      exact hfull (fun i hi => by_contra (fun hni => hno ⟨i, hi, hni⟩))
    exact (find_first_zero_bit_of_clear addr size hfree).2.1

/-- The result of a dynamic registration with both later steps succeeding, on a
registry whose lowest clear bit is `i`. -/
theorem misc_register_dynamic_success (cfg : MiscConfig) (s : MiscState) (misc : miscdevice)
    (i : Nat) (hdyn : misc.minor = cfg.MISC_DYNAMIC_MINOR)
    (hi : find_first_zero_bit s.misc_minors cfg.DYNAMIC_MINORS = i)
    (hlt : i < cfg.DYNAMIC_MINORS) :
    misc_register cfg s misc 0 0 =
      ({ misc_minors := insert i s.misc_minors,
         cdev_map := { dev := MKDEV cfg.MISC_MAJOR (cfg.DYNAMIC_MINOR_BASE + i),
                       range := 1, data := misc.fops } :: s.cdev_map,
         misc_class := (MKDEV cfg.MISC_MAJOR (cfg.DYNAMIC_MINOR_BASE + i), misc.name)
            :: s.misc_class,
         log := s.log ++ [RegOp.set_bit i,
            RegOp.kobj_map (MKDEV cfg.MISC_MAJOR (cfg.DYNAMIC_MINOR_BASE + i)) 0,
            RegOp.device_create (MKDEV cfg.MISC_MAJOR (cfg.DYNAMIC_MINOR_BASE + i))
              misc.name 0] },
       { misc with
          minor := cfg.DYNAMIC_MINOR_BASE + i,
          this_device :=
            DevicePtr.node (MKDEV cfg.MISC_MAJOR (cfg.DYNAMIC_MINOR_BASE + i)) misc.name,
          cdev := { owner := misc.fops.owner, ops := misc.fops,
                    dev := MKDEV cfg.MISC_MAJOR (cfg.DYNAMIC_MINOR_BASE + i), count := 1 } },
       0) := by
  subst hi
  rw [misc_register_dynamic cfg s misc 0 0 hdyn hlt]
  simp [bind_and_publish, after_alloc, set_bit]

/-- C11 as stated fails: the descriptor `static_128` is registered with the
explicit minor 128 on the empty registry; a dynamic registration whose binding
step then fails leaves bit 0 set; deregistering the static device clears bit 0,
so the bitmap does not stay as it was. -/
theorem misc_deregister_static_clears_bit :
    (misc_register cfg4 MiscState.empty static_128 0 0).2.2 = 0 ∧
    (misc_register cfg4 MiscState.empty static_128 0 0).2.1.minor = static_128.minor ∧
    (misc_register cfg4 (misc_register cfg4 MiscState.empty static_128 0 0).1
      (gpio_demo_miscdev cfg4) (-EBUSY) 0).1.misc_minors = {0} ∧
    (misc_deregister cfg4
      (misc_register cfg4 (misc_register cfg4 MiscState.empty static_128 0 0).1
        (gpio_demo_miscdev cfg4) (-EBUSY) 0).1
      (misc_register cfg4 MiscState.empty static_128 0 0).2.1).1.misc_minors = ∅ ∧
    (misc_deregister cfg4
      (misc_register cfg4 (misc_register cfg4 MiscState.empty static_128 0 0).1
        (gpio_demo_miscdev cfg4) (-EBUSY) 0).1
      (misc_register cfg4 MiscState.empty static_128 0 0).2.1).1.misc_minors ≠
    (misc_register cfg4 (misc_register cfg4 MiscState.empty static_128 0 0).1
      (gpio_demo_miscdev cfg4) (-EBUSY) 0).1.misc_minors := by
  decide

/-- C11 (amended): `misc_deregister` returns 0 and clears a bit exactly when the
descriptor's minor is at or above `DYNAMIC_MINOR_BASE`.  For a minor below
`DYNAMIC_MINOR_BASE` the bitmap is unchanged and the steps taken are: destroy
the namespace entry, then unbind.  For a minor at or above it the bitmap loses
exactly the bit `minor - DYNAMIC_MINOR_BASE` and the steps are: destroy, unbind,
then clear the bit.  A descriptor left by a successful dynamic registration has
the minor `DYNAMIC_MINOR_BASE + i` of the bit `i` it was given, and deregistering
it clears exactly bit `i`, last. -/
theorem misc_deregister_clears_by_range (cfg : MiscConfig) (s : MiscState)
    (misc : miscdevice) :
    (misc_deregister cfg s misc).2 = 0 ∧
    (misc.minor < cfg.DYNAMIC_MINOR_BASE →
      (misc_deregister cfg s misc).1.misc_minors = s.misc_minors ∧
      (misc_deregister cfg s misc).1.log = s.log ++
        [RegOp.device_destroy (MKDEV cfg.MISC_MAJOR misc.minor),
         RegOp.cdev_del misc.cdev.dev]) ∧
    (cfg.DYNAMIC_MINOR_BASE ≤ misc.minor →
      (misc_deregister cfg s misc).1.misc_minors
        = s.misc_minors.erase (misc.minor - cfg.DYNAMIC_MINOR_BASE) ∧
      (misc.minor - cfg.DYNAMIC_MINOR_BASE) ∉ (misc_deregister cfg s misc).1.misc_minors ∧
      (∀ j, j ≠ misc.minor - cfg.DYNAMIC_MINOR_BASE →
        (j ∈ (misc_deregister cfg s misc).1.misc_minors ↔ j ∈ s.misc_minors)) ∧
      (misc_deregister cfg s misc).1.log = s.log ++
        [RegOp.device_destroy (MKDEV cfg.MISC_MAJOR misc.minor),
         RegOp.cdev_del misc.cdev.dev,
         RegOp.clear_bit (misc.minor - cfg.DYNAMIC_MINOR_BASE)]) ∧
    (∀ (s0 : MiscState) (misc0 : miscdevice) (map_err create_err : Int),
      misc0.minor = cfg.MISC_DYNAMIC_MINOR →
      (misc_register cfg s0 misc0 map_err create_err).2.2 = 0 →
      misc = (misc_register cfg s0 misc0 map_err create_err).2.1 →
      ∃ i, i < cfg.DYNAMIC_MINORS ∧ i ∉ s0.misc_minors ∧
        misc.minor = cfg.DYNAMIC_MINOR_BASE + i ∧
        misc.cdev.dev = MKDEV cfg.MISC_MAJOR misc.minor ∧
        (misc_deregister cfg s misc).1.misc_minors = s.misc_minors.erase i ∧
        (misc_deregister cfg s misc).1.log = s.log ++
          [RegOp.device_destroy (MKDEV cfg.MISC_MAJOR misc.minor),
           RegOp.cdev_del (MKDEV cfg.MISC_MAJOR misc.minor), RegOp.clear_bit i]) := by
  have e := misc_deregister_eq cfg s misc
  refine ⟨by rw [e], ?_, ?_, ?_⟩
  · intro hlow
    have hn : ¬ cfg.DYNAMIC_MINOR_BASE ≤ misc.minor := by omega
    rw [e]
    simp [hn]
  · intro hge
    rw [e]
    simp only [if_pos hge]
    refine ⟨trivial, Finset.not_mem_erase _ _, ?_, by simp⟩
    intro j hj
    rw [Finset.mem_erase]
    exact ⟨fun h => h.2, fun h => ⟨hj, h⟩⟩
  · intro s0 misc0 me ce hdyn hok hmisc
    obtain ⟨hlt, hm, hc⟩ := misc_register_dynamic_ok cfg s0 misc0 me ce hdyn hok
    subst hm hc
    have hnot := find_first_zero_bit_not_mem _ _ hlt
    rw [misc_register_dynamic_success cfg s0 misc0 _ hdyn rfl hlt] at hmisc
    refine ⟨find_first_zero_bit s0.misc_minors cfg.DYNAMIC_MINORS, hlt, hnot, ?_, ?_, ?_, ?_⟩
    · rw [hmisc]
    · rw [hmisc]
    · rw [e, hmisc]; simp
    · rw [e, hmisc]; simp

theorem misc_deregister_clears_by_range_witness :
    (misc_deregister cfg4 { MiscState.empty with misc_minors := {0, 1} }
      { static_128 with minor := 129 }).1.misc_minors = {0} ∧
    (misc_deregister cfg4 { MiscState.empty with misc_minors := {0, 1} }
      { static_128 with minor := 5 }).1.misc_minors = {0, 1} := by
  have h1 := (misc_deregister_clears_by_range cfg4 { MiscState.empty with misc_minors := {0, 1} }
    { static_128 with minor := 129 }).2.2.1 (by decide)
  have h2 := (misc_deregister_clears_by_range cfg4 { MiscState.empty with misc_minors := {0, 1} }
    { static_128 with minor := 5 }).2.1 (by decide)
  exact ⟨by rw [h1.1]; decide, h2.1⟩

/-- The binding and publishing steps keep name, handlers, mode, parent and minor
of the descriptor and the bitmap of the registry. -/
theorem bind_and_publish_descriptor (cfg : MiscConfig) (s : MiscState) (misc : miscdevice)
    (map_err create_err : Int) :
    (bind_and_publish cfg s misc map_err create_err).2.1.name = misc.name ∧
    (bind_and_publish cfg s misc map_err create_err).2.1.fops = misc.fops ∧
    (bind_and_publish cfg s misc map_err create_err).2.1.mode = misc.mode ∧
    (bind_and_publish cfg s misc map_err create_err).2.1.parent = misc.parent ∧
    (bind_and_publish cfg s misc map_err create_err).2.1.minor = misc.minor := by
  by_cases hm : map_err = 0 <;> by_cases hc : create_err = 0 <;>
    simp [bind_and_publish, hm, hc]

/-- C16 as stated fails: registering `gpio_demo_miscdev`, which requests a dynamic
minor (255), on the empty registry replaces the requested minor by 128; the
deregistration does not put the request back, so registering the descriptor
again takes the explicit-minor path: the bitmap stays empty and no `set_bit` is
done. -/
theorem misc_register_overwrites_minor :
    (gpio_demo_miscdev cfg4).minor = cfg4.MISC_DYNAMIC_MINOR ∧
    (misc_register cfg4 MiscState.empty (gpio_demo_miscdev cfg4) 0 0).2.2 = 0 ∧
    (misc_register cfg4 MiscState.empty (gpio_demo_miscdev cfg4) 0 0).2.1.minor = 128 ∧
    (misc_register cfg4 MiscState.empty (gpio_demo_miscdev cfg4) 0 0).2.1.minor
      ≠ (gpio_demo_miscdev cfg4).minor ∧
    (misc_register cfg4
      (misc_deregister cfg4 (misc_register cfg4 MiscState.empty (gpio_demo_miscdev cfg4) 0 0).1
        (misc_register cfg4 MiscState.empty (gpio_demo_miscdev cfg4) 0 0).2.1).1
      (misc_register cfg4 MiscState.empty (gpio_demo_miscdev cfg4) 0 0).2.1 0 0).2.2 = 0 ∧
    (misc_register cfg4
      (misc_deregister cfg4 (misc_register cfg4 MiscState.empty (gpio_demo_miscdev cfg4) 0 0).1
        (misc_register cfg4 MiscState.empty (gpio_demo_miscdev cfg4) 0 0).2.1).1
      (misc_register cfg4 MiscState.empty (gpio_demo_miscdev cfg4) 0 0).2.1 0 0).1.misc_minors
      = ∅ ∧
    (misc_register cfg4
      (misc_deregister cfg4 (misc_register cfg4 MiscState.empty (gpio_demo_miscdev cfg4) 0 0).1
        (misc_register cfg4 MiscState.empty (gpio_demo_miscdev cfg4) 0 0).2.1).1
      (misc_register cfg4 MiscState.empty (gpio_demo_miscdev cfg4) 0 0).2.1 0 0).1.log.drop 6
      = [RegOp.kobj_map (10, 128) 0, RegOp.device_create (10, 128) "gpio_demo" 0] := by
  decide

/-- C16 (amended): `misc_register` leaves name, handler reference, mode and
parent of the descriptor unchanged, for every registry state and outcome.  The
minor field is unchanged when it names an explicit minor and when a dynamic
request meets a full bitmap; a dynamic request that finds a clear bit `i` is
replaced by the assigned minor `DYNAMIC_MINOR_BASE + i`, whatever the later
steps do.  `misc_deregister` writes no field of the descriptor (it returns only
the registry), so after a successful registration and the deregistration the
descriptor still names the assigned minor; when that differs from the marker
`MISC_DYNAMIC_MINOR`, registering the descriptor again takes the explicit-minor
path: the minor stays and the bitmap is not changed. -/
theorem misc_register_descriptor_fields (cfg : MiscConfig) (s : MiscState)
    (misc : miscdevice) (map_err create_err : Int) :
    (misc_register cfg s misc map_err create_err).2.1.name = misc.name ∧
    (misc_register cfg s misc map_err create_err).2.1.fops = misc.fops ∧
    (misc_register cfg s misc map_err create_err).2.1.mode = misc.mode ∧
    (misc_register cfg s misc map_err create_err).2.1.parent = misc.parent ∧
    (misc.minor ≠ cfg.MISC_DYNAMIC_MINOR →
      (misc_register cfg s misc map_err create_err).2.1.minor = misc.minor ∧
      (misc_register cfg s misc map_err create_err).1.misc_minors = s.misc_minors) ∧
    (misc.minor = cfg.MISC_DYNAMIC_MINOR → (∀ i, i < cfg.DYNAMIC_MINORS → i ∈ s.misc_minors) →
      (misc_register cfg s misc map_err create_err).2.1 = misc) ∧
    (misc.minor = cfg.MISC_DYNAMIC_MINOR → (∃ i, i < cfg.DYNAMIC_MINORS ∧ i ∉ s.misc_minors) →
      ∃ i, i < cfg.DYNAMIC_MINORS ∧ i ∉ s.misc_minors ∧
        (misc_register cfg s misc map_err create_err).2.1.minor
          = cfg.DYNAMIC_MINOR_BASE + i) ∧
    (misc.minor = cfg.MISC_DYNAMIC_MINOR →
      (misc_register cfg s misc map_err create_err).2.2 = 0 →
      (misc_register cfg s misc map_err create_err).2.1.minor ≠ cfg.MISC_DYNAMIC_MINOR →
      ∀ (s2 : MiscState) (map_err2 create_err2 : Int),
        (misc_register cfg s2 (misc_register cfg s misc map_err create_err).2.1
            map_err2 create_err2).2.1.minor
          = (misc_register cfg s misc map_err create_err).2.1.minor ∧
        (misc_register cfg s2 (misc_register cfg s misc map_err create_err).2.1
            map_err2 create_err2).1.misc_minors = s2.misc_minors) := by
  have hstatic : ∀ (s1 : MiscState) (m : miscdevice) (me ce : Int),
      m.minor ≠ cfg.MISC_DYNAMIC_MINOR →
      (misc_register cfg s1 m me ce).2.1.minor = m.minor ∧
      (misc_register cfg s1 m me ce).1.misc_minors = s1.misc_minors := by
    intro s1 m me ce hst
    rw [misc_register_static cfg s1 m me ce hst]
    exact ⟨(bind_and_publish_descriptor cfg s1 m me ce).2.2.2.2,
      bind_and_publish_bits cfg s1 m me ce⟩
  have hfields : (misc_register cfg s misc map_err create_err).2.1.name = misc.name ∧
      (misc_register cfg s misc map_err create_err).2.1.fops = misc.fops ∧
      (misc_register cfg s misc map_err create_err).2.1.mode = misc.mode ∧
      (misc_register cfg s misc map_err create_err).2.1.parent = misc.parent := by
    by_cases hdyn : misc.minor = cfg.MISC_DYNAMIC_MINOR
    · by_cases hfull : ∀ i, i < cfg.DYNAMIC_MINORS → i ∈ s.misc_minors
      · rw [misc_register_full cfg s misc map_err create_err hdyn hfull]
        exact ⟨rfl, rfl, rfl, rfl⟩
      · have hfree : ∃ i, i < cfg.DYNAMIC_MINORS ∧ i ∉ s.misc_minors := by
          by_contra hno
          exact hfull (fun i hi => by_contra (fun hni => hno ⟨i, hi, hni⟩))
        obtain ⟨hlt, -, -⟩ := find_first_zero_bit_of_clear _ _ hfree
        rw [misc_register_dynamic cfg s misc map_err create_err hdyn hlt]
        obtain ⟨h1, h2, h3, h4, -⟩ := bind_and_publish_descriptor cfg
          (after_alloc cfg s misc (find_first_zero_bit s.misc_minors cfg.DYNAMIC_MINORS)).1
          (after_alloc cfg s misc (find_first_zero_bit s.misc_minors cfg.DYNAMIC_MINORS)).2
          map_err create_err
        exact ⟨h1, h2, h3, h4⟩
    · rw [misc_register_static cfg s misc map_err create_err hdyn]
      obtain ⟨h1, h2, h3, h4, -⟩ := bind_and_publish_descriptor cfg s misc map_err create_err
      exact ⟨h1, h2, h3, h4⟩
  obtain ⟨hn, hf, hmo, hp⟩ := hfields
  refine ⟨hn, hf, hmo, hp, hstatic s misc map_err create_err, ?_, ?_, ?_⟩
  · intro hdyn hfull
    rw [misc_register_full cfg s misc map_err create_err hdyn hfull]
  · intro hdyn hfree
    obtain ⟨hlt, hnot, -⟩ := find_first_zero_bit_of_clear _ _ hfree
    refine ⟨_, hlt, hnot, ?_⟩
    rw [misc_register_dynamic cfg s misc map_err create_err hdyn hlt]
    exact (bind_and_publish_descriptor cfg _ _ map_err create_err).2.2.2.2
  · intro _ _ hne s2 me2 ce2
    exact hstatic s2 _ me2 ce2 hne

theorem misc_register_descriptor_fields_witness :
    (misc_register cfg4 MiscState.empty static_128 0 0).2.1.minor = 128 ∧
    (misc_register cfg4 MiscState.empty static_128 0 0).1.misc_minors = ∅ ∧
    (∃ i, i < 4 ∧
      (misc_register cfg4 MiscState.empty (gpio_demo_miscdev cfg4) 0 0).2.1.minor = 128 + i) := by
  have h := misc_register_descriptor_fields cfg4 MiscState.empty static_128 0 0
  have h1 := h.2.2.2.2.1 (by decide)
  have g := misc_register_descriptor_fields cfg4 MiscState.empty (gpio_demo_miscdev cfg4) 0 0
  obtain ⟨i, hi, -, hm⟩ := g.2.2.2.2.2.2.1 rfl ⟨0, by decide, by decide⟩
  exact ⟨h1.1, h1.2, i, hi, hm⟩

/-! ## Return value and failure of `gpio_demo_write`, `count` of `gpio_demo_read` -/

/-- On a valid pin, a write of the bytes `b :: rest` with `b` neither `'0'` nor
`'1'` is this result. -/
theorem write_bad_byte_eq (gpio_is_valid : Int → Bool) (st : DriverState) (b : Char)
    (rest : List Char) (ppos : Int) (hw_ret : Int)
    (hvalid : gpio_is_valid st.gpio = true) (h0 : b ≠ '0') (h1 : b ≠ '1') :
    gpio_demo_write gpio_is_valid st (b :: rest) (b :: rest).length ppos hw_ret
      = { ret := -EINVAL, ppos := ppos, out := [], st := st } := by
  have hcap : (if (b :: rest).length > 8 - 1 then 8 - 1 else (b :: rest).length)
      = min (b :: rest).length 7 := by
    simp only [List.length_cons]; split <;> omega
  have hpos : 0 < min (b :: rest).length 7 := by simp
  have hsub : min (b :: rest).length 7 - (b :: rest).length = 0 := by omega
  have hhead : (List.take (min (b :: rest).length 7) (b :: rest) ++ ['\x00']).headD '\x00'
      = b := by
    obtain ⟨k, hk⟩ : ∃ k, min (b :: rest).length 7 = k + 1 :=
      ⟨_, (Nat.succ_pred_eq_of_pos hpos).symm⟩
    rw [hk]; rfl
  have hne : (b :: rest).length ≠ 0 := by simp
  unfold gpio_demo_write
  simp only [hvalid, hne, hcap, copy_from_user, hsub, hhead]
  simp [h0, h1]

/-- On a valid pin, a write with `count = 0` returns 0 and changes nothing. -/
theorem write_empty_eq (gpio_is_valid : Int → Bool) (st : DriverState) (ubuf : List Char)
    (ppos : Int) (hw_ret : Int) (hvalid : gpio_is_valid st.gpio = true) :
    gpio_demo_write gpio_is_valid st ubuf 0 ppos hw_ret
      = { ret := 0, ppos := ppos, out := [], st := st } := by
  simp [gpio_demo_write, hvalid]

/-- C13: on a valid pin, whenever a write of `bytes` succeeds (returns a
non-negative value) the value returned is `min (length bytes) 7`, hence at most
the length of the input and below the 8 bytes of the staging buffer.  An empty
input returns 0 and leaves the whole driver state, including the log of library
calls, as it was.  An input that starts with `'0'` or `'1'` returns
`min (length bytes) 7` whenever the pin is an output already or the direction
call succeeds. -/
theorem write_returns_consumed (gpio_is_valid : Int → Bool) (st : DriverState)
    (bytes : List Char) (ppos : Int) (hw_ret : Int)
    (hvalid : gpio_is_valid st.gpio = true) :
    (0 ≤ (gpio_demo_write gpio_is_valid st bytes bytes.length ppos hw_ret).ret →
      (gpio_demo_write gpio_is_valid st bytes bytes.length ppos hw_ret).ret
        = ((min bytes.length 7 : Nat) : Int) ∧
      (gpio_demo_write gpio_is_valid st bytes bytes.length ppos hw_ret).ret
        ≤ (bytes.length : Int) ∧
      (gpio_demo_write gpio_is_valid st bytes bytes.length ppos hw_ret).ret < 8) ∧
    (bytes = [] →
      (gpio_demo_write gpio_is_valid st bytes bytes.length ppos hw_ret).ret = 0 ∧
      (gpio_demo_write gpio_is_valid st bytes bytes.length ppos hw_ret).st = st ∧
      (gpio_demo_write gpio_is_valid st bytes bytes.length ppos hw_ret).st.hw.log
        = st.hw.log) ∧
    (∀ (b : Char) (rest : List Char), bytes = b :: rest → (b = '0' ∨ b = '1') →
      (st.is_output = true ∨ hw_ret = 0) →
      (gpio_demo_write gpio_is_valid st bytes bytes.length ppos hw_ret).ret
        = ((min bytes.length 7 : Nat) : Int)) := by
  have hbound : ((min bytes.length 7 : Nat) : Int) ≤ (bytes.length : Int) ∧
      ((min bytes.length 7 : Nat) : Int) < 8 := by
    constructor
    · exact_mod_cast Nat.min_le_left _ _
    · have : min bytes.length 7 < 8 := by omega
      exact_mod_cast this
  refine ⟨?_, ?_, ?_⟩
  · intro hnn
    suffices h : (gpio_demo_write gpio_is_valid st bytes bytes.length ppos hw_ret).ret
        = ((min bytes.length 7 : Nat) : Int) by
      rw [h]; exact ⟨rfl, hbound.1, hbound.2⟩
    cases bytes with
    | nil =>
      rw [List.length_nil, write_empty_eq gpio_is_valid st [] ppos hw_ret hvalid]
      rfl
    | cons b rest =>
      by_cases hb : b = '0' ∨ b = '1'
      · rw [write_digit_eq gpio_is_valid st b rest ppos hw_ret hvalid hb] at hnn ⊢
        by_cases hio : st.is_output = true
        · simp [hio]
        · by_cases hr : hw_ret = 0
          · simp [hio, hr]
          · simp [hio, hr, EIO] at hnn
      · have h0 : b ≠ '0' := fun h => hb (Or.inl h)
        have h1 : b ≠ '1' := fun h => hb (Or.inr h)
        rw [write_bad_byte_eq gpio_is_valid st b rest ppos hw_ret hvalid h0 h1] at hnn
        simp [EINVAL] at hnn
  · intro he
    subst he
    rw [List.length_nil, write_empty_eq gpio_is_valid st [] ppos hw_ret hvalid]
    exact ⟨rfl, rfl, rfl⟩
  · intro b rest he hb hok
    subst he
    rw [write_digit_eq gpio_is_valid st b rest ppos hw_ret hvalid hb]
    rcases hok with hio | hr
    · simp [hio]
    · by_cases hio : st.is_output = true
      · simp [hio]
      · simp [hio, hr]

theorem write_returns_consumed_witness :
    (gpio_demo_write gpio_is_valid_512 drv_out1 "1234567890".toList 10 0 0).ret = 7 ∧
    (gpio_demo_write gpio_is_valid_512 drv_out1 [] 0 0 0).ret = 0 ∧
    (gpio_demo_write gpio_is_valid_512 drv_out1 [] 0 0 0).st = drv_out1 := by
  have h := write_returns_consumed gpio_is_valid_512 drv_out1 "1234567890".toList 0 0
    (by decide)
  have g := write_returns_consumed gpio_is_valid_512 drv_out1 [] 0 0 (by decide)
  have g2 := g.2.1 rfl
  exact ⟨(h.1 (by decide)).1, g2.1, g2.2.1⟩

/-- C14: on a valid pin with the direction flag at Input, a write whose first
byte is `'0'` or `'1'` and whose `gpio_direction_output` call fails, with
whatever non-zero code, returns -EIO; the direction flag stays Input, the level
and the hardware direction stay as they were, and the only library call made is
the failed `gpio_direction_output`. -/
theorem write_direction_failure_eio (gpio_is_valid : Int → Bool) (st : DriverState)
    (b : Char) (rest : List Char) (ppos : Int) (hw_ret : Int)
    (hvalid : gpio_is_valid st.gpio = true) (hin : st.is_output = false)
    (hb : b = '0' ∨ b = '1') (hfail : hw_ret ≠ 0) :
    (gpio_demo_write gpio_is_valid st (b :: rest) (b :: rest).length ppos hw_ret).ret
      = - EIO ∧
    (gpio_demo_write gpio_is_valid st (b :: rest) (b :: rest).length ppos hw_ret).st.is_output
      = false ∧
    (gpio_demo_write gpio_is_valid st (b :: rest) (b :: rest).length ppos hw_ret).st.hw.level
      = st.hw.level ∧
    (gpio_demo_write gpio_is_valid st (b :: rest) (b :: rest).length ppos hw_ret).st.hw.dir
      = st.hw.dir ∧
    (gpio_demo_write gpio_is_valid st (b :: rest) (b :: rest).length ppos hw_ret).st.hw.log
      = st.hw.log ++ [HwOp.direction_output st.gpio (if b = '0' then 0 else 1) hw_ret] ∧
    (gpio_demo_write gpio_is_valid st (b :: rest) (b :: rest).length ppos hw_ret).ppos
      = ppos := by
  rw [write_digit_eq gpio_is_valid st b rest ppos hw_ret hvalid hb]
  simp [hin, hfail, gpio_direction_output, parsed_value]

theorem write_direction_failure_eio_witness :
    (gpio_demo_write gpio_is_valid_512 (drv_in 0) ['1'] 1 0 (-16)).ret = -5 ∧
    (gpio_demo_write gpio_is_valid_512 (drv_in 0) ['1'] 1 0 (-16)).st.is_output = false := by
  have h := write_direction_failure_eio gpio_is_valid_512 (drv_in 0) '1' [] 0 (-16)
    (by decide) (by decide) (by decide) (by decide)
  exact ⟨h.1, h.2.1⟩

/-- C18: the result of a read does not depend on `count`, at any position and in
any state; on a valid pin, a read at position 0 into memory that can take two
bytes returns 2, stores 2 bytes and moves the position to 2 for every `count`,
so for `count` 0 or 1 more bytes are delivered than were asked for. -/
theorem read_ignores_count (gpio_is_valid : Int → Bool) (st : DriverState)
    (writable count : Nat) (hvalid : gpio_is_valid st.gpio = true) (hbuf : 2 ≤ writable) :
    (∀ (count2 : Nat) (ppos : Int),
      gpio_demo_read gpio_is_valid st writable count2 ppos
        = gpio_demo_read gpio_is_valid st writable count ppos) ∧
    (gpio_demo_read gpio_is_valid st writable count 0).ret = 2 ∧
    (gpio_demo_read gpio_is_valid st writable count 0).out.length = 2 ∧
    (gpio_demo_read gpio_is_valid st writable count 0).ppos = 0 + 2 ∧
    (count < 2 → count < (gpio_demo_read gpio_is_valid st writable count 0).out.length) ∧
    (gpio_demo_read gpio_is_valid st writable 0 0).out.length = 2 ∧
    (gpio_demo_read gpio_is_valid st writable 1 0).out.length = 2 := by
  have e := read_at_zero_eq gpio_is_valid st writable count hvalid hbuf
  have hlen : (gpio_demo_read gpio_is_valid st writable count 0).out.length = 2 := by
    rw [e]; split <;> rfl
  refine ⟨fun _ _ => rfl, by rw [e], hlen, by rw [e]; rfl, ?_, ?_, ?_⟩
  · intro hc; rw [hlen]; exact hc
  · rw [read_at_zero_eq gpio_is_valid st writable 0 hvalid hbuf]; split <;> rfl
  · rw [read_at_zero_eq gpio_is_valid st writable 1 hvalid hbuf]; split <;> rfl

theorem read_ignores_count_witness :
    (gpio_demo_read gpio_is_valid_512 drv_out1 2 0 0).ret = 2 ∧
    (gpio_demo_read gpio_is_valid_512 drv_out1 2 0 0).out.length = 2 := by
  have h := read_ignores_count gpio_is_valid_512 drv_out1 2 0 (by decide) (by decide)
  exact ⟨h.2.1, h.2.2.1⟩

/-! ## The direction flag, and failing construction -/

theorem last_direction_append (log : List HwOp) (op : HwOp) :
    last_direction (log ++ [op]) = direction_step (last_direction log) op := by
  simp [last_direction, List.foldl_append]

/-- The states `set_dir_output_locked` can end in. -/
theorem set_dir_output_locked_eq (gpio_is_valid : Int → Bool) (st : DriverState) (val : Int)
    (hw_ret : Int) :
    set_dir_output_locked gpio_is_valid st val hw_ret =
      if gpio_is_valid st.gpio = true then
        ({ st with
            hw := { level := if hw_ret = 0 then (if val ≠ 0 then 1 else 0) else st.hw.level,
                    dir := if hw_ret = 0 then some Direction.Output else st.hw.dir,
                    requested := st.hw.requested,
                    log := st.hw.log ++
                      [HwOp.direction_output st.gpio (if val ≠ 0 then 1 else 0) hw_ret] },
            is_output := if hw_ret = 0 then true else st.is_output }, hw_ret)
      else (st, -EINVAL) := by
  by_cases hv : gpio_is_valid st.gpio = true <;> by_cases hr : hw_ret = 0 <;>
    simp [set_dir_output_locked, gpio_direction_output, hv, hr]

/-- The states `set_dir_input_locked` can end in. -/
theorem set_dir_input_locked_eq (gpio_is_valid : Int → Bool) (st : DriverState)
    (hw_ret : Int) :
    set_dir_input_locked gpio_is_valid st hw_ret =
      if gpio_is_valid st.gpio = true then
        ({ st with
            hw := { st.hw with
                    dir := if hw_ret = 0 then some Direction.Input else st.hw.dir,
                    log := st.hw.log ++ [HwOp.direction_input st.gpio hw_ret] },
            is_output := if hw_ret = 0 then false else st.is_output }, hw_ret)
      else (st, -EINVAL) := by
  by_cases hv : gpio_is_valid st.gpio = true <;> by_cases hr : hw_ret = 0 <;>
    simp [set_dir_input_locked, gpio_direction_input, hv, hr]

theorem flag_matches_set_dir_output (gpio_is_valid : Int → Bool) (st : DriverState)
    (val : Int) (hw_ret : Int)
    (h : (set_dir_output_locked gpio_is_valid st val hw_ret).2 = 0 ∨ flag_matches_line st) :
    flag_matches_line (set_dir_output_locked gpio_is_valid st val hw_ret).1 := by
  rw [set_dir_output_locked_eq] at h ⊢
  by_cases hv : gpio_is_valid st.gpio = true
  · by_cases hr : hw_ret = 0
    · simp [hv, hr, flag_matches_line, last_direction_append, direction_step, flag_direction]
    · have hm : flag_matches_line st := by
        rcases h with h | h
        · simp [hv] at h; exact absurd h hr
        · exact h
      simpa [hv, hr, flag_matches_line, last_direction_append, direction_step] using hm
  · have hm : flag_matches_line st := by
      rcases h with h | h
      · simp [hv, EINVAL] at h
      · exact h
    simpa [hv] using hm

theorem flag_matches_set_dir_input (gpio_is_valid : Int → Bool) (st : DriverState)
    (hw_ret : Int)
    (h : (set_dir_input_locked gpio_is_valid st hw_ret).2 = 0 ∨ flag_matches_line st) :
    flag_matches_line (set_dir_input_locked gpio_is_valid st hw_ret).1 := by
  rw [set_dir_input_locked_eq] at h ⊢
  by_cases hv : gpio_is_valid st.gpio = true
  · by_cases hr : hw_ret = 0
    · simp [hv, hr, flag_matches_line, last_direction_append, direction_step, flag_direction]
    · have hm : flag_matches_line st := by
        rcases h with h | h
        · simp [hv] at h; exact absurd h hr
        · exact h
      simpa [hv, hr, flag_matches_line, last_direction_append, direction_step] using hm
  · have hm : flag_matches_line st := by
      rcases h with h | h
      · simp [hv, EINVAL] at h
      · exact h
    simpa [hv] using hm

/-- The states a read can end in. -/
theorem read_state_cases (gpio_is_valid : Int → Bool) (st : DriverState)
    (writable count : Nat) (ppos : Int) :
    (gpio_demo_read gpio_is_valid st writable count ppos).st = st ∨
    (gpio_demo_read gpio_is_valid st writable count ppos).st =
      { st with hw := { st.hw with log := st.hw.log ++ [HwOp.get_value st.gpio] } } := by
  unfold gpio_demo_read
  split
  · exact Or.inl rfl
  · split
    · exact Or.inl rfl
    · right
      simp only [gpio_get_value]
      repeat' split
      all_goals rfl

/-- The states a write can end in. -/
theorem write_state_cases (gpio_is_valid : Int → Bool) (st : DriverState)
    (ubuf : List Char) (count : Nat) (ppos : Int) (hw_ret : Int) :
    (gpio_demo_write gpio_is_valid st ubuf count ppos hw_ret).st = st ∨
    (st.is_output = true ∧ ∃ val : Int,
      (gpio_demo_write gpio_is_valid st ubuf count ppos hw_ret).st =
        { st with hw := { st.hw with level := val,
                                     log := st.hw.log ++ [HwOp.set_value st.gpio val] } }) ∨
    (st.is_output = false ∧ ∃ val : Int,
      (gpio_demo_write gpio_is_valid st ubuf count ppos hw_ret).st =
        (set_dir_output_locked gpio_is_valid st val hw_ret).1) := by
  by_cases hv : gpio_is_valid st.gpio = true
  · by_cases hc : count = 0
    · left; simp [gpio_demo_write, hv, hc]
    · unfold gpio_demo_write
      rw [if_neg (by simp [hv]), if_neg hc]
      simp only []
      generalize (if count > 8 - 1 then 8 - 1 else count) = c
      by_cases hf : (copy_from_user ubuf c).2 ≠ 0
      · left; rw [if_pos hf]
      · rw [if_neg hf]
        generalize (if ((copy_from_user ubuf c).1 ++ ['\x00']).headD '\x00' = '0' then some 0
          else if ((copy_from_user ubuf c).1 ++ ['\x00']).headD '\x00' = '1' then some 1
          else none : Option Int) = parsed
        cases parsed with
        | none => left; rfl
        | some val =>
          cases hio : st.is_output
          · right; right
            refine ⟨rfl, val, ?_⟩
            simp only [Bool.not_false, if_true]
            split <;> rfl
          · right; left
            refine ⟨rfl, val, ?_⟩
            simp [gpio_set_value]
  · left; simp [gpio_demo_write, hv]

/-- The states an ioctl can end in. -/
theorem ioctl_state_cases (gpio_is_valid : Int → Bool) (st : DriverState) (cmd : Nat)
    (hw_ret : Int) :
    (gpio_demo_ioctl gpio_is_valid st cmd hw_ret).1 = st ∨
    (∃ val : Int, (gpio_demo_ioctl gpio_is_valid st cmd hw_ret).1 =
      (set_dir_output_locked gpio_is_valid
        { st with hw := { st.hw with log := st.hw.log ++ [HwOp.get_value st.gpio] } }
        val hw_ret).1) ∨
    (gpio_demo_ioctl gpio_is_valid st cmd hw_ret).1 =
      (set_dir_input_locked gpio_is_valid st hw_ret).1 := by
  unfold gpio_demo_ioctl
  split
  · exact Or.inl rfl
  · split
    · right; left
      exact ⟨st.hw.level, rfl⟩
    · split
      · right; right; rfl
      · exact Or.inl rfl

/-- `gpio_demo_init` step by step. -/
theorem gpio_demo_init_eq (cfg : MiscConfig) (gpio_is_valid : Int → Bool) (w : World)
    (initial_is_output : Bool) (initial_value : Int) (o : InitOutcomes) :
    gpio_demo_init cfg gpio_is_valid w initial_is_output initial_value o =
      if gpio_is_valid w.drv.gpio = true then
        if o.request_ret = 0 then
          if (init_direction gpio_is_valid (after_request w o.request_ret) initial_is_output
              initial_value o.dir_ret).2 = 0 then
            if (misc_register cfg w.reg w.miscdev o.map_err o.create_err).2.2 = 0 then
              ({ drv := (init_direction gpio_is_valid (after_request w o.request_ret)
                    initial_is_output initial_value o.dir_ret).1,
                 reg := (misc_register cfg w.reg w.miscdev o.map_err o.create_err).1,
                 miscdev := (misc_register cfg w.reg w.miscdev o.map_err o.create_err).2.1 }, 0)
            else
              ({ drv := { (init_direction gpio_is_valid (after_request w o.request_ret)
                      initial_is_output initial_value o.dir_ret).1 with
                    hw := gpio_free (init_direction gpio_is_valid (after_request w o.request_ret)
                      initial_is_output initial_value o.dir_ret).1.hw
                      (init_direction gpio_is_valid (after_request w o.request_ret)
                      initial_is_output initial_value o.dir_ret).1.gpio },
                 reg := (misc_register cfg w.reg w.miscdev o.map_err o.create_err).1,
                 miscdev := (misc_register cfg w.reg w.miscdev o.map_err o.create_err).2.1 },
               (misc_register cfg w.reg w.miscdev o.map_err o.create_err).2.2)
          else
            ({ w with
                drv := { (init_direction gpio_is_valid (after_request w o.request_ret)
                      initial_is_output initial_value o.dir_ret).1 with
                    hw := gpio_free (init_direction gpio_is_valid (after_request w o.request_ret)
                      initial_is_output initial_value o.dir_ret).1.hw
                      (init_direction gpio_is_valid (after_request w o.request_ret)
                      initial_is_output initial_value o.dir_ret).1.gpio } },
             (init_direction gpio_is_valid (after_request w o.request_ret) initial_is_output
                initial_value o.dir_ret).2)
        else ({ w with drv := after_request w o.request_ret }, o.request_ret)
      else (w, -EINVAL) := by
  unfold gpio_demo_init
  by_cases hv : gpio_is_valid w.drv.gpio = true
  · rw [if_neg (by simp [hv]), if_pos hv]
    by_cases hrq : o.request_ret = 0
    · rw [if_pos hrq]
      simp only []
      rw [if_neg (by simp [gpio_request, hrq])]
      cases initial_is_output
      · by_cases hd : (init_direction gpio_is_valid (after_request w o.request_ret) false
            initial_value o.dir_ret).2 = 0
        · rw [if_pos hd]
          simp only [init_direction, after_request] at hd ⊢
          simp only [Bool.false_eq_true, if_false] at hd ⊢
          rw [if_neg (by simp [hd])]
          by_cases hm : (misc_register cfg w.reg w.miscdev o.map_err o.create_err).2.2 = 0
          · rw [if_pos hm, if_neg (by simp [hm])]
          · rw [if_neg hm, if_pos (by simpa using hm)]
        · rw [if_neg hd]
          simp only [init_direction, after_request] at hd ⊢
          simp only [Bool.false_eq_true, if_false] at hd ⊢
          rw [if_pos (by simpa using hd)]
      · by_cases hd : (init_direction gpio_is_valid (after_request w o.request_ret) true
            initial_value o.dir_ret).2 = 0
        · rw [if_pos hd]
          simp only [init_direction, after_request] at hd ⊢
          simp only [if_true] at hd ⊢
          rw [if_neg (by simp [hd])]
          by_cases hm : (misc_register cfg w.reg w.miscdev o.map_err o.create_err).2.2 = 0
          · rw [if_pos hm, if_neg (by simp [hm])]
          · rw [if_neg hm, if_pos (by simpa using hm)]
        · rw [if_neg hd]
          simp only [init_direction, after_request] at hd ⊢
          simp only [if_true] at hd ⊢
          rw [if_pos (by simpa using hd)]
    · rw [if_neg hrq]
      simp only []
      rw [if_pos (by simpa [gpio_request] using hrq)]
      rfl
  · rw [if_pos (by simp [hv]), if_neg hv]

theorem flag_matches_init (cfg : MiscConfig) (gpio_is_valid : Int → Bool) (w : World)
    (initial_is_output : Bool) (initial_value : Int) (o : InitOutcomes)
    (h : (gpio_demo_init cfg gpio_is_valid w initial_is_output initial_value o).2 = 0) :
    flag_matches_line
      (gpio_demo_init cfg gpio_is_valid w initial_is_output initial_value o).1.drv := by
  rw [gpio_demo_init_eq] at h ⊢
  by_cases hv : gpio_is_valid w.drv.gpio = true
  · rw [if_pos hv] at h ⊢
    by_cases hrq : o.request_ret = 0
    · rw [if_pos hrq] at h ⊢
      by_cases hd : (init_direction gpio_is_valid (after_request w o.request_ret)
          initial_is_output initial_value o.dir_ret).2 = 0
      · rw [if_pos hd] at h ⊢
        by_cases hm : (misc_register cfg w.reg w.miscdev o.map_err o.create_err).2.2 = 0
        · rw [if_pos hm]
          show flag_matches_line (init_direction gpio_is_valid (after_request w o.request_ret)
            initial_is_output initial_value o.dir_ret).1
          cases initial_is_output
          · exact flag_matches_set_dir_input gpio_is_valid _ _ (Or.inl hd)
          · exact flag_matches_set_dir_output gpio_is_valid _ _ _ (Or.inl hd)
        · rw [if_neg hm] at h
          exact absurd h hm
      · rw [if_neg hd] at h
        exact absurd h hd
    · rw [if_neg hrq] at h
      exact absurd h hrq
  · rw [if_neg hv] at h
    simp [EINVAL] at h

theorem flag_matches_get_value (st : DriverState) (h : flag_matches_line st) :
    flag_matches_line
      { st with hw := { st.hw with log := st.hw.log ++ [HwOp.get_value st.gpio] } } := by
  simpa [flag_matches_line, last_direction_append, direction_step] using h

theorem flag_matches_of_reachable (gpio_is_valid : Int → Bool) (st : DriverState)
    (h : DriverReachable gpio_is_valid st) : flag_matches_line st := by
  induction h with
  | init cfg w iio iv o hok => exact flag_matches_init cfg gpio_is_valid w iio iv o hok
  | read st writable count ppos _ ih =>
    rcases read_state_cases gpio_is_valid st writable count ppos with e | e
    · rw [e]; exact ih
    · rw [e]; exact flag_matches_get_value st ih
  | write st ubuf count ppos hw_ret _ ih =>
    rcases write_state_cases gpio_is_valid st ubuf count ppos hw_ret with
      e | ⟨_, val, e⟩ | ⟨_, val, e⟩
    · rw [e]; exact ih
    · rw [e]
      simpa [flag_matches_line, last_direction_append, direction_step] using ih
    · rw [e]; exact flag_matches_set_dir_output gpio_is_valid st val hw_ret (Or.inr ih)
  | ioctl st cmd hw_ret _ ih =>
    rcases ioctl_state_cases gpio_is_valid st cmd hw_ret with e | ⟨val, e⟩ | e
    · rw [e]; exact ih
    · rw [e]
      exact flag_matches_set_dir_output gpio_is_valid _ val hw_ret
        (Or.inr (flag_matches_get_value st ih))
    · rw [e]; exact flag_matches_set_dir_input gpio_is_valid st hw_ret (Or.inr ih)

/-- C17: in every driver state reachable from a successful `gpio_demo_init` by
read, write and ioctl calls with arbitrary outcomes of the library calls, the
flag `is_output` is true exactly when the last successful direction call in the
log is `gpio_direction_output` (and false exactly when it is
`gpio_direction_input`), and the line is configured accordingly.  Hence a write
on such a state calls `gpio_set_value` only when the pin is configured as an
output, and a direction call that fails never changes the flag, be it made by
the helpers, by a write or by an ioctl. -/
theorem direction_flag_invariant (gpio_is_valid : Int → Bool) (st : DriverState)
    (h : DriverReachable gpio_is_valid st) :
    (st.is_output = true ↔ last_direction st.hw.log = some Direction.Output) ∧
    (st.is_output = false ↔ last_direction st.hw.log = some Direction.Input) ∧
    (st.is_output = true ↔ st.hw.dir = some Direction.Output) ∧
    (∀ (ubuf : List Char) (count : Nat) (ppos hw_ret : Int) (gpio val : Int),
      HwOp.set_value gpio val ∈
        (gpio_demo_write gpio_is_valid st ubuf count ppos hw_ret).st.hw.log.drop
          st.hw.log.length →
      st.is_output = true ∧ last_direction st.hw.log = some Direction.Output ∧
      st.hw.dir = some Direction.Output) ∧
    (∀ (val hw_ret : Int), hw_ret ≠ 0 →
      (set_dir_output_locked gpio_is_valid st val hw_ret).1.is_output = st.is_output) ∧
    (∀ (hw_ret : Int), hw_ret ≠ 0 →
      (set_dir_input_locked gpio_is_valid st hw_ret).1.is_output = st.is_output) ∧
    (∀ (ubuf : List Char) (count : Nat) (ppos hw_ret : Int), hw_ret ≠ 0 →
      (gpio_demo_write gpio_is_valid st ubuf count ppos hw_ret).st.is_output
        = st.is_output) ∧
    (∀ (cmd : Nat) (hw_ret : Int), hw_ret ≠ 0 →
      (gpio_demo_ioctl gpio_is_valid st cmd hw_ret).1.is_output = st.is_output) := by
  obtain ⟨hlog, hdir⟩ := flag_matches_of_reachable gpio_is_valid st h
  have hout : ∀ (s1 : DriverState) (val hw_ret : Int), hw_ret ≠ 0 →
      (set_dir_output_locked gpio_is_valid s1 val hw_ret).1.is_output = s1.is_output := by
    intro s1 val hw_ret hr
    rw [set_dir_output_locked_eq]
    by_cases hv : gpio_is_valid s1.gpio = true <;> simp [hv, hr]
  have hin : ∀ (s1 : DriverState) (hw_ret : Int), hw_ret ≠ 0 →
      (set_dir_input_locked gpio_is_valid s1 hw_ret).1.is_output = s1.is_output := by
    intro s1 hw_ret hr
    rw [set_dir_input_locked_eq]
    by_cases hv : gpio_is_valid s1.gpio = true <;> simp [hv, hr]
  refine ⟨?_, ?_, ?_, ?_, hout st, hin st, ?_, ?_⟩
  · rw [hlog]; cases st.is_output <;> simp [flag_direction]
  · rw [hlog]; cases st.is_output <;> simp [flag_direction]
  · rw [hdir]; cases st.is_output <;> simp [flag_direction]
  · intro ubuf count ppos hw_ret gpio val hmem
    rcases write_state_cases gpio_is_valid st ubuf count ppos hw_ret with
      e | ⟨hio, _, _⟩ | ⟨_, v, e⟩
    · rw [e] at hmem
      simp at hmem
    · refine ⟨hio, ?_, ?_⟩
      · rw [hlog, hio]; rfl
      · rw [hdir, hio]; rfl
    · rw [e, set_dir_output_locked_eq] at hmem
      by_cases hv : gpio_is_valid st.gpio = true
      · simp [hv] at hmem
      · simp [hv] at hmem
  · intro ubuf count ppos hw_ret hr
    rcases write_state_cases gpio_is_valid st ubuf count ppos hw_ret with
      e | ⟨_, _, e⟩ | ⟨_, v, e⟩
    · rw [e]
    · rw [e]
    · rw [e]; exact hout st v hw_ret hr
  · intro cmd hw_ret hr
    rcases ioctl_state_cases gpio_is_valid st cmd hw_ret with e | ⟨v, e⟩ | e
    · rw [e]
    · rw [e]; exact hout _ v hw_ret hr
    · rw [e]; exact hin st hw_ret hr

theorem direction_flag_invariant_witness :
    ((gpio_demo_ioctl gpio_is_valid_512
        (gpio_demo_write gpio_is_valid_512 (drv_in 0) ['1'] 1 0 (-5)).st
        GPIODEMO_SET_DIR_OUT 0).1.is_output = true ↔
      last_direction (gpio_demo_ioctl gpio_is_valid_512
        (gpio_demo_write gpio_is_valid_512 (drv_in 0) ['1'] 1 0 (-5)).st
        GPIODEMO_SET_DIR_OUT 0).1.hw.log = some Direction.Output) :=
  (direction_flag_invariant gpio_is_valid_512 _
    (DriverReachable.ioctl _ _ _
      (DriverReachable.write _ _ _ _ _
        (DriverReachable.init cfg4 (World.boot cfg4 21 0 MiscState.empty) false 0 all_ok
          (by decide))))).1

/-- On a valid pin the direction step returns the code of its library call, keeps
pin number and lease, and logs that one call. -/
theorem init_direction_valid (gpio_is_valid : Int → Bool) (st : DriverState)
    (initial_is_output : Bool) (initial_value : Int) (dir_ret : Int)
    (hv : gpio_is_valid st.gpio = true) :
    (init_direction gpio_is_valid st initial_is_output initial_value dir_ret).2 = dir_ret ∧
    (init_direction gpio_is_valid st initial_is_output initial_value dir_ret).1.gpio
      = st.gpio ∧
    (init_direction gpio_is_valid st initial_is_output initial_value dir_ret).1.hw.requested
      = st.hw.requested ∧
    (init_direction gpio_is_valid st initial_is_output initial_value dir_ret).1.hw.log
      = st.hw.log ++ [init_direction_op st.gpio initial_is_output initial_value dir_ret] := by
  cases initial_is_output
  · simp [init_direction, init_direction_op, set_dir_input_locked_eq, hv]
  · simp [init_direction, init_direction_op, set_dir_output_locked_eq, hv]

/-- C15: `gpio_demo_init` started without a lease and failing ends without a
lease, and returns the error of the step that failed.  With an invalid pin it
returns -EINVAL and leaves everything (driver, registry with its bitmap,
descriptor, log of library calls: neither `gpio_request` nor `misc_register` is
called) as it was.  When `gpio_request` fails its code is returned and the only
library call is that request.  When the direction call fails its code is
returned, when `misc_register` fails its code is returned, and in both cases the
library calls are: the request, the direction call, and one `gpio_free`. -/
theorem init_failure_releases_lease (cfg : MiscConfig) (gpio_is_valid : Int → Bool)
    (w : World) (initial_is_output : Bool) (initial_value : Int) (o : InitOutcomes)
    (hlease : w.drv.hw.requested = false)
    (hfail : (gpio_demo_init cfg gpio_is_valid w initial_is_output initial_value o).2 ≠ 0) :
    (gpio_demo_init cfg gpio_is_valid w initial_is_output initial_value o).1.drv.hw.requested
      = false ∧
    (gpio_is_valid w.drv.gpio = false →
      gpio_demo_init cfg gpio_is_valid w initial_is_output initial_value o = (w, -EINVAL) ∧
      (gpio_demo_init cfg gpio_is_valid w initial_is_output initial_value o).1.reg = w.reg ∧
      (gpio_demo_init cfg gpio_is_valid w initial_is_output initial_value o).1.reg.misc_minors
        = w.reg.misc_minors ∧
      (gpio_demo_init cfg gpio_is_valid w initial_is_output initial_value o).1.drv.hw.log
        = w.drv.hw.log) ∧
    (gpio_is_valid w.drv.gpio = true → o.request_ret ≠ 0 →
      (gpio_demo_init cfg gpio_is_valid w initial_is_output initial_value o).2
        = o.request_ret ∧
      (gpio_demo_init cfg gpio_is_valid w initial_is_output initial_value o).1.drv.hw.log
        = w.drv.hw.log ++ [HwOp.request w.drv.gpio o.request_ret] ∧
      (gpio_demo_init cfg gpio_is_valid w initial_is_output initial_value o).1.reg = w.reg) ∧
    (gpio_is_valid w.drv.gpio = true → o.request_ret = 0 → o.dir_ret ≠ 0 →
      (gpio_demo_init cfg gpio_is_valid w initial_is_output initial_value o).2 = o.dir_ret ∧
      (gpio_demo_init cfg gpio_is_valid w initial_is_output initial_value o).1.drv.hw.log
        = w.drv.hw.log ++ [HwOp.request w.drv.gpio 0,
            init_direction_op w.drv.gpio initial_is_output initial_value o.dir_ret,
            HwOp.free w.drv.gpio] ∧
      (gpio_demo_init cfg gpio_is_valid w initial_is_output initial_value o).1.reg = w.reg) ∧
    (gpio_is_valid w.drv.gpio = true → o.request_ret = 0 → o.dir_ret = 0 →
      (gpio_demo_init cfg gpio_is_valid w initial_is_output initial_value o).2
        = (misc_register cfg w.reg w.miscdev o.map_err o.create_err).2.2 ∧
      (gpio_demo_init cfg gpio_is_valid w initial_is_output initial_value o).1.drv.hw.log
        = w.drv.hw.log ++ [HwOp.request w.drv.gpio 0,
            init_direction_op w.drv.gpio initial_is_output initial_value 0,
            HwOp.free w.drv.gpio]) := by
  have e := gpio_demo_init_eq cfg gpio_is_valid w initial_is_output initial_value o
  by_cases hv : gpio_is_valid w.drv.gpio = true
  · have hv0 : gpio_is_valid (after_request w o.request_ret).gpio = true := hv
    obtain ⟨hd2, hdg, hdr, hdl⟩ := init_direction_valid gpio_is_valid
      (after_request w o.request_ret) initial_is_output initial_value o.dir_ret hv0
    rw [if_pos hv] at e
    by_cases hrq : o.request_ret = 0
    · rw [if_pos hrq, hd2] at e
      by_cases hd : o.dir_ret = 0
      · rw [if_pos hd] at e
        by_cases hm : (misc_register cfg w.reg w.miscdev o.map_err o.create_err).2.2 = 0
        · rw [if_pos hm] at e
          rw [e] at hfail
          exact absurd rfl hfail
        · rw [if_neg hm] at e
          rw [e]
          refine ⟨by simp [gpio_free], ?_, ?_, ?_, ?_⟩
          · intro h; rw [hv] at h; exact absurd h (by decide)
          · intro _ h; exact absurd hrq h
          · intro _ _ h; exact absurd hd h
          · intro _ _ _
            refine ⟨rfl, ?_⟩
            simp only [gpio_free, hdl, hdg]
            simp [after_request, gpio_request, hrq, hd]
      · rw [if_neg hd] at e
        rw [e]
        refine ⟨by simp [gpio_free], ?_, ?_, ?_, ?_⟩
        · intro h; rw [hv] at h; exact absurd h (by decide)
        · intro _ h; exact absurd hrq h
        · intro _ _ _
          refine ⟨rfl, ?_, rfl⟩
          simp only [gpio_free, hdl, hdg]
          simp [after_request, gpio_request, hrq]
        · intro _ _ h; exact absurd h hd
    · rw [if_neg hrq] at e
      rw [e]
      refine ⟨by simp [after_request, gpio_request, hrq, hlease], ?_, ?_, ?_, ?_⟩
      · intro h; rw [hv] at h; exact absurd h (by decide)
      · intro _ _
        exact ⟨rfl, by simp [after_request, gpio_request], rfl⟩
      · intro _ h; exact absurd h hrq
      · intro _ h; exact absurd h hrq
  · rw [if_neg hv] at e
    rw [e]
    refine ⟨hlease, ?_, ?_, ?_, ?_⟩
    · intro _; exact ⟨rfl, rfl, rfl, rfl⟩
    · intro h; exact absurd h hv
    · intro h; exact absurd h hv
    · intro h; exact absurd h hv

theorem init_failure_releases_lease_witness :
    (gpio_demo_init cfg4 gpio_is_valid_512 (World.boot cfg4 (-1) 0 MiscState.empty) true 0
      all_ok) = (World.boot cfg4 (-1) 0 MiscState.empty, -22) ∧
    (gpio_demo_init cfg4 gpio_is_valid_512 (World.boot cfg4 21 0 MiscState.empty) true 0
      { all_ok with dir_ret := -5 }).1.drv.hw.requested = false ∧
    (gpio_demo_init cfg4 gpio_is_valid_512 (World.boot cfg4 21 0 MiscState.empty) true 0
      { all_ok with dir_ret := -5 }).2 = -5 := by
  have h := init_failure_releases_lease cfg4 gpio_is_valid_512
    (World.boot cfg4 (-1) 0 MiscState.empty) true 0 all_ok rfl (by decide)
  have g := init_failure_releases_lease cfg4 gpio_is_valid_512
    (World.boot cfg4 21 0 MiscState.empty) true 0 { all_ok with dir_ret := -5 } rfl (by decide)
  exact ⟨(h.2.1 (by decide)).1, g.1, (g.2.2.2.1 (by decide) rfl (by decide)).1⟩

end GpioDemo
